import Mathlib

/-!
Verification development for the tao-links bidirectional link transcoding
engine.  URLs are modelled structurally (`Url`): the scheme, host, pathname,
the decoded query pairs, and the fragment.  Strings are modelled as lists of
characters (`Str`), and the WHATWG percent-coding used by `URLSearchParams`
and `encodeURIComponent` is implemented over them, so that encoding and
decoding functions are executable and their inverse laws are provable.
-/

set_option maxHeartbeats 1000000

abbrev Str := List Char

def str (s : String) : Str := s.data

/-! ### Character classes (ASCII-range predicates, as in the WHATWG algorithms) -/

def isDigitChar (c : Char) : Bool := 48 ≤ c.toNat && c.toNat ≤ 57

def isAlphanumChar (c : Char) : Bool :=
  (48 ≤ c.toNat && c.toNat ≤ 57) || (65 ≤ c.toNat && c.toNat ≤ 90) ||
    (97 ≤ c.toNat && c.toNat ≤ 122)

def asciiChar (c : Char) : Bool := c.toNat < 128

def digitsOnly (s : Str) : Bool := s.all isDigitChar

def asciiStr (s : Str) : Bool := s.all asciiChar

/-! ### Hex digits and percent bytes -/

def hexDigitChar (n : Nat) : Char :=
  if n < 10 then Char.ofNat (48 + n) else Char.ofNat (55 + n)

def hexVal (c : Char) : Option Nat :=
  if 48 ≤ c.toNat ∧ c.toNat ≤ 57 then some (c.toNat - 48)
  else if 65 ≤ c.toNat ∧ c.toNat ≤ 70 then some (c.toNat - 55)
  else if 97 ≤ c.toNat ∧ c.toNat ≤ 102 then some (c.toNat - 87)
  else none

def percentByte (n : Nat) : Str := ['%', hexDigitChar (n / 16), hexDigitChar (n % 16)]

/-- UTF-8 bytes of a code point. -/
def utf8Bytes (n : Nat) : List Nat :=
  if n < 128 then [n]
  else if n < 2048 then [192 + n / 64, 128 + n % 64]
  else if n < 65536 then [224 + n / 4096, 128 + n / 64 % 64, 128 + n % 64]
  else [240 + n / 262144, 128 + n / 4096 % 64, 128 + n / 64 % 64, 128 + n % 64]

/-! ### Percent-coding: `URLSearchParams` serialization (form coding) and
`encodeURIComponent` / `decodeURIComponent` -/

def isFormSafe (c : Char) : Bool :=
  isAlphanumChar c || c == '*' || c == '-' || c == '.' || c == '_'

def formEncodeChar (c : Char) : Str :=
  if isFormSafe c then [c]
  else if c == ' ' then ['+']
  else ((utf8Bytes c.toNat).map percentByte).flatten

def formEncodeStr : Str → Str
  | [] => []
  | c :: cs => formEncodeChar c ++ formEncodeStr cs

def isUriSafe (c : Char) : Bool :=
  isAlphanumChar c || c == '-' || c == '_' || c == '.' || c == '!' || c == '~' ||
    c == '*' || c == '\'' || c == '(' || c == ')'

def encodeURIComponentChar (c : Char) : Str :=
  if isUriSafe c then [c] else ((utf8Bytes c.toNat).map percentByte).flatten

/-- The `encodeURIComponent` built-in, over `Str`. -/
def encodeURIComponentStr : Str → Str
  | [] => []
  | c :: cs => encodeURIComponentChar c ++ encodeURIComponentStr cs

/-- The `decodeURIComponent` built-in, over `Str` (single-byte view of the
decoded bytes; every input this development decodes is ASCII, where this
matches the built-in exactly; a malformed escape is kept literally). -/
def percentDecode : Str → Str
  | [] => []
  | '%' :: h1 :: h2 :: rest2 =>
    match hexVal h1, hexVal h2 with
    | some a, some b => Char.ofNat (16 * a + b) :: percentDecode rest2
    | _, _ => '%' :: percentDecode (h1 :: h2 :: rest2)
  | c :: rest => c :: percentDecode rest

/-- Form decoding used when parsing a query string: `+` is a space, `%XX` a byte. -/
def formDecode : Str → Str
  | [] => []
  | '+' :: rest => ' ' :: formDecode rest
  | '%' :: h1 :: h2 :: rest2 =>
    match hexVal h1, hexVal h2 with
    | some a, some b => Char.ofNat (16 * a + b) :: formDecode rest2
    | _, _ => '%' :: formDecode (h1 :: h2 :: rest2)
  | c :: rest => c :: formDecode rest

/-! ### String scanning primitives -/

def strStarts : Str → Str → Bool
  | [], _ => true
  | _ :: _, [] => false
  | p :: ps, c :: cs => p == c && strStarts ps cs

def strContains (needle : Str) : Str → Bool
  | [] => needle.isEmpty
  | c :: t => strStarts needle (c :: t) || strContains needle t

def splitFirstChar (c : Char) : Str → Str × Option Str
  | [] => ([], none)
  | x :: xs =>
    if x = c then ([], some xs)
    else
      let r := splitFirstChar c xs
      (x :: r.1, r.2)

def splitAllChar (c : Char) : Str → List Str
  | [] => [[]]
  | x :: xs =>
    let r := splitAllChar c xs
    if x = c then [] :: r
    else
      match r with
      | [] => [[x]]
      | h :: t => (x :: h) :: t

def spanStr (p : Char → Bool) : Str → Str × Str
  | [] => ([], [])
  | x :: xs =>
    if p x then
      let r := spanStr p xs
      (x :: r.1, r.2)
    else ([], x :: xs)

/-! ### Character-class facts -/

def plainHexChar (c : Char) : Bool :=
  (48 ≤ c.toNat && c.toNat ≤ 57) || (65 ≤ c.toNat && c.toNat ≤ 70)

/-! ### Structural URL model

A `Url` mirrors the WHATWG `URL` object as used by the repository: `protocol`
(with the trailing colon), `host`, `pathname` (leading slash), the decoded
`searchParams` pairs in order, and the fragment (`hash`, without the leading
`#`).  `Url.href` re-serializes it, form-encoding the query pairs exactly as
`URLSearchParams.toString` does. -/

structure Url where
  protocol : Str
  host : Str
  pathname : Str
  params : List (Str × Str)
  hash : Str
deriving DecidableEq, Repr

/-- `URLSearchParams.toString`. -/
def renderParams : List (Str × Str) → Str
  | [] => []
  | [(k, v)] => formEncodeStr k ++ '=' :: formEncodeStr v
  | (k, v) :: rest => formEncodeStr k ++ '=' :: formEncodeStr v ++ '&' :: renderParams rest

def Url.href (u : Url) : Str :=
  u.protocol ++ str "//" ++ u.host ++ u.pathname ++
    (if u.params.isEmpty then [] else '?' :: renderParams u.params) ++
    (if u.hash.isEmpty then [] else '#' :: u.hash)

/-- `searchParams.get`: first value bound to the key, already decoded. -/
def getParam : List (Str × Str) → Str → Option Str
  | [], _ => none
  | (k, v) :: rest, key => if k = key then some v else getParam rest key

/-- Parse one `key=value` segment of a query string. -/
def parsePair (seg : Str) : Str × Str :=
  match splitFirstChar '=' seg with
  | (k, none) => (formDecode k, [])
  | (k, some v) => (formDecode k, formDecode v)

/-- Parse a query string into decoded pairs (`new URLSearchParams(s)`);
empty segments are skipped. -/
def parseParams (s : Str) : List (Str × Str) :=
  (splitAllChar '&' s).filterMap fun seg => if seg = [] then none else some (parsePair seg)

/-- Parse an absolute `http(s)` URL string (`new URL(s)`); fails — as the
built-in throws — when no scheme-plus-authority prefix is present. -/
def parseUrl (s : Str) : Except Str Url :=
  if strStarts (str "https://") s then parseUrlAfter (str "https:") (s.drop 8)
  else if strStarts (str "http://") s then parseUrlAfter (str "http:") (s.drop 7)
  else .error (str "Invalid URL")
where
  parseUrlAfter (protocol rest : Str) : Except Str Url :=
    let h := splitFirstChar '#' rest
    let q := splitFirstChar '?' h.1
    let hp := spanStr (fun c => !(c == '/')) q.1
    if hp.1 = [] then .error (str "Invalid URL")
    else
      .ok ⟨protocol, hp.1, (if hp.2 = [] then str "/" else hp.2),
        (match q.2 with | some qs => parseParams qs | none => []),
        (match h.2 with | some hs => hs | none => [])⟩

/-! ### Domain model: marketplaces and agents -/

/-- Modelled from the spec: the closed `Marketplace` enum (the four marketplaces
the source names: taobao, tmall, weidian, 1688; the models file itself is not in
the sources). -/
inductive Marketplace where
  | taobao
  | tmall
  | weidian
  | m1688
deriving DecidableEq, Repr

/-- The `AgentWithRaw` union: every agent handled by the full `generateAgentLink`
variant, plus the pseudo-agent `raw`. -/
inductive AgentWithRaw where
  | pandabuy
  | wegobuy
  | superbuy
  | sugargoo
  | cssbuy
  | hagobuy
  | hegobuy
  | kameymall
  | cnfans
  | mulebuy
  | ezbuycn
  | hoobuy
  | allchinabuy
  | basetao
  | eastmallbuy
  | hubbuycn
  | joyabuy
  | orientdig
  | oopbuy
  | lovegobuy
  | blikbuy
  | ponybuy
  | panglobalbuy
  | sifubuy
  | loongbuy
  | raw
deriving DecidableEq, Repr

/-- The marketplace tag as interpolated into templates (`${marketplace}`). -/
def marketplaceName : Marketplace → Str
  | .taobao => str "taobao"
  | .tmall => str "tmall"
  | .weidian => str "weidian"
  | .m1688 => str "1688"

def agentName : AgentWithRaw → Str
  | .pandabuy => str "pandabuy"
  | .wegobuy => str "wegobuy"
  | .superbuy => str "superbuy"
  | .sugargoo => str "sugargoo"
  | .cssbuy => str "cssbuy"
  | .hagobuy => str "hagobuy"
  | .hegobuy => str "hegobuy"
  | .kameymall => str "kameymall"
  | .cnfans => str "cnfans"
  | .mulebuy => str "mulebuy"
  | .ezbuycn => str "ezbuycn"
  | .hoobuy => str "hoobuy"
  | .allchinabuy => str "allchinabuy"
  | .basetao => str "basetao"
  | .eastmallbuy => str "eastmallbuy"
  | .hubbuycn => str "hubbuycn"
  | .joyabuy => str "joyabuy"
  | .orientdig => str "orientdig"
  | .oopbuy => str "oopbuy"
  | .lovegobuy => str "lovegobuy"
  | .blikbuy => str "blikbuy"
  | .ponybuy => str "ponybuy"
  | .panglobalbuy => str "panglobalbuy"
  | .sifubuy => str "sifubuy"
  | .loongbuy => str "loongbuy"
  | .raw => str "raw"

/-- Modelled from the spec: the raw-link codec templates (`generateRawLink` is
not among the sources; the templates are pinned by the decode tests that are). -/
def generateRawLink (m : Marketplace) (id : Str) : Url :=
  match m with
  | .taobao => ⟨str "https:", str "item.taobao.com", str "/item.htm", [(str "id", id)], []⟩
  | .tmall => ⟨str "https:", str "detail.tmall.com", str "/item.htm", [(str "id", id)], []⟩
  | .weidian => ⟨str "https:", str "weidian.com", str "/item.html", [(str "itemID", id)], []⟩
  | .m1688 => ⟨str "https:", str "detail.1688.com", str "/offer/" ++ id ++ str ".html", [], []⟩

/-- Modelled from the spec: `oopbuyMarketplaceStrings` (path segment per
marketplace; the data file is not among the sources; the `weidian` entry is
pinned by the example in the oopbuy branch; tmall collapses to taobao as for
the agents that cannot structurally distinguish them). -/
def oopbuyMarketplaceStrings : Marketplace → Option Str
  | .taobao => some (str "taobao")
  | .tmall => some (str "taobao")
  | .weidian => some (str "weidian")
  | .m1688 => some (str "1688")

/-- Modelled from the spec: `panglobalbuyMarketplaceStrings` (numeric `type`
codes; the data file is not among the sources; the spec states this agent
supports only a marketplace subset, so the map is partial: tmall is absent). -/
def panglobalbuyMarketplaceStrings : Marketplace → Option Str
  | .taobao => some (str "1")
  | .tmall => none
  | .weidian => some (str "2")
  | .m1688 => some (str "0")

/-- Modelled from the spec: `sifubuyMarketplaceStrings` (numeric `type` codes;
the data file is not among the sources; the example in the sifubuy branch pins
`type=2` for taobao; the spec states this agent supports only a marketplace
subset, so the map is partial: tmall is absent). -/
def sifubuyMarketplaceStrings : Marketplace → Option Str
  | .taobao => some (str "2")
  | .tmall => none
  | .weidian => some (str "1")
  | .m1688 => some (str "3")

/-- `if (referral) urlParams.set(key, referral)`: attached only when the
referral value is present and non-empty (JS truthiness). -/
def refParam (key : Str) (referral : Option Str) : List (Str × Str) :=
  match referral with
  | some r => if r = [] then [] else [(key, r)]
  | none => []

/-- The full `generateAgentLink` variant (first function in the sources file):
per-agent encoding of (marketplace, id, referral?, ra?) into the agent URL.
A thrown `Error` is modelled as `Except.error` of its message. -/
def generateAgentLink (agent : AgentWithRaw) (marketplace : Marketplace) (id : Str)
    (referral : Option Str) (ra : Option Str) : Except Str Url :=
  match agent with
  | .pandabuy =>
    .ok ⟨str "https:", str "www.pandabuy.com", str "/product",
      [(str "ra", ra.getD (str "1")), (str "url", (generateRawLink marketplace id).href)] ++
        refParam (str "inviteCode") referral, []⟩
  | .wegobuy =>
    .ok ⟨str "https:", str "www.wegobuy.com", str "/en/page/buy",
      [(str "from", str "search-input"), (str "url", (generateRawLink marketplace id).href)] ++
        refParam (str "partnercode") referral, []⟩
  | .superbuy =>
    .ok ⟨str "https:", str "www.superbuy.com", str "/en/page/buy",
      [(str "from", str "search-input"), (str "url", (generateRawLink marketplace id).href)] ++
        refParam (str "partnercode") referral, []⟩
  | .sugargoo =>
    -- Sugargoo likes double encodings: an explicit extra `encodeURIComponent`.
    .ok ⟨str "https:", str "www.sugargoo.com", str "/", [],
      str "/home/productDetail?" ++
        renderParams ([(str "productLink",
          encodeURIComponentStr (generateRawLink marketplace id).href)] ++
          refParam (str "memberId") referral)⟩
  | .cssbuy =>
    let ps := refParam (str "promotionCode") referral
    match marketplace with
    | .weidian =>
      .ok ⟨str "https:", str "www.cssbuy.com", str "/item-micro-" ++ id ++ str ".html", ps, []⟩
    | .m1688 =>
      .ok ⟨str "https:", str "www.cssbuy.com", str "/item-1688-" ++ id ++ str ".html", ps, []⟩
    | _ =>
      .ok ⟨str "https:", str "www.cssbuy.com", str "/item-" ++ id ++ str ".html", ps, []⟩
  | .hagobuy =>
    .ok ⟨str "https:", str "www.hagobuy.com", str "/item/details",
      [(str "url", (generateRawLink marketplace id).href)] ++
        refParam (str "affcode") referral, []⟩
  | .hegobuy =>
    .ok ⟨str "https:", str "www.hegobuy.com", str "/item/details",
      [(str "url", (generateRawLink marketplace id).href)] ++
        refParam (str "affcode") referral, []⟩
  | .kameymall =>
    .ok ⟨str "https:", str "www.kameymall.com", str "/purchases/search/item",
      [(str "url", (generateRawLink marketplace id).href)] ++
        refParam (str "code") referral, []⟩
  | .cnfans =>
    -- the closed Marketplace enum makes the CnFans detect-throw unreachable
    let st : Str :=
      match marketplace with
      | .taobao | .tmall => str "taobao"
      | .weidian => str "weidian"
      | .m1688 => str "ali_1688"
    .ok ⟨str "https:", str "cnfans.com", str "/product/",
      [(str "shop_type", st), (str "id", id)] ++ refParam (str "ref") referral, []⟩
  | .mulebuy =>
    let st : Str :=
      match marketplace with
      | .taobao | .tmall => str "taobao"
      | .weidian => str "weidian"
      | .m1688 => str "ali_1688"
    .ok ⟨str "https:", str "mulebuy.com", str "/product/",
      [(str "shop_type", st), (str "id", id)] ++ refParam (str "ref") referral, []⟩
  | .ezbuycn =>
    .ok ⟨str "https:", str "ezbuycn.com", str "/api/chaid.aspx",
      [(str "key", (generateRawLink marketplace id).href)], []⟩
  | .hoobuy =>
    let ps := refParam (str "inviteCode") referral
    match marketplace with
    | .m1688 => .ok ⟨str "https:", str "www.hoobuy.com", str "/product/0/" ++ id, ps, []⟩
    | .taobao | .tmall =>
      .ok ⟨str "https:", str "www.hoobuy.com", str "/product/1/" ++ id, ps, []⟩
    | .weidian => .ok ⟨str "https:", str "www.hoobuy.com", str "/product/2/" ++ id, ps, []⟩
  | .allchinabuy =>
    .ok ⟨str "https:", str "www.allchinabuy.com", str "/en/page/buy",
      [(str "from", str "search-input"), (str "url", (generateRawLink marketplace id).href)] ++
        refParam (str "partnercode") referral, []⟩
  | .basetao =>
    let corrected := if marketplace = .tmall then Marketplace.taobao else marketplace
    .ok ⟨str "https:", str "www.basetao.com",
      str "/best-taobao-agent-service/products/agent/" ++ marketplaceName corrected ++
        str "/" ++ id ++ str ".html", [], []⟩
  | .eastmallbuy =>
    .ok ⟨str "https:", str "eastmallbuy.com", str "/index/item/index.html",
      [(str "searchlang", str "en"), (str "url", (generateRawLink marketplace id).href)] ++
        refParam (str "inviter") referral, []⟩
  | .hubbuycn =>
    .ok ⟨str "https:", str "www.hubbuycn.com", str "/index/item/index.html",
      [(str "searchlang", str "en"), (str "url", (generateRawLink marketplace id).href)] ++
        refParam (str "inviter") referral, []⟩
  | .joyabuy =>
    let st : Str :=
      match marketplace with
      | .taobao | .tmall => str "taobao"
      | .weidian => str "weidian"
      | .m1688 => str "ali_1688"
    .ok ⟨str "https:", str "joyabuy.com", str "/product/",
      [(str "shop_type", st), (str "id", id)] ++ refParam (str "ref") referral, []⟩
  | .orientdig =>
    let st : Str :=
      match marketplace with
      | .taobao | .tmall => str "taobao"
      | .weidian => str "weidian"
      | .m1688 => str "ali_1688"
    .ok ⟨str "https:", str "orientdig.com", str "/product/",
      [(str "shop_type", st), (str "id", id)] ++ refParam (str "ref") referral, []⟩
  | .oopbuy =>
    match oopbuyMarketplaceStrings marketplace with
    | some mpStr =>
      .ok ⟨str "https:", str "www.oopbuy.com", str "/product/" ++ mpStr ++ str "/" ++ id,
        refParam (str "inviteCode") referral, []⟩
    | none =>
      -- JS would interpolate the literal text `undefined` into the path here
      .ok ⟨str "https:", str "www.oopbuy.com",
        str "/product/undefined/" ++ id, refParam (str "inviteCode") referral, []⟩
  | .lovegobuy =>
    let st := if marketplace = .tmall then Marketplace.taobao else marketplace
    .ok ⟨str "https:", str "www.lovegobuy.com", str "/product",
      [(str "id", id), (str "shop_type", marketplaceName st)] ++
        refParam (str "invite_code") referral, []⟩
  | .blikbuy =>
    .ok ⟨str "https:", str "www.blikbuy.com", str "/",
      [(str "go", str "item"), (str "url", (generateRawLink marketplace id).href)] ++
        refParam (str "icode") referral, []⟩
  | .ponybuy =>
    let st := if marketplace = .tmall then Marketplace.taobao else marketplace
    .ok ⟨str "https:", str "www.ponybuy.com", str "/en-gb/goods",
      refParam (str "tracking") referral ++
        [(str "product_id", id), (str "platform", marketplaceName st)], []⟩
  | .panglobalbuy =>
    match panglobalbuyMarketplaceStrings marketplace with
    | none => .error (str "Unsupported marketplace for PanGlobalBuy")
    | some mpStr =>
      .ok ⟨str "https:", str "panglobalbuy.com", str "/", [],
        str "/details?" ++
          renderParams ([(str "type", mpStr), (str "offerId", id)] ++
            refParam (str "share_id") referral)⟩
  | .sifubuy =>
    match sifubuyMarketplaceStrings marketplace with
    | none => .error (str "Unsupported marketplace for SifuBuy")
    | some mpStr =>
      .ok ⟨str "https:", str "www.sifubuy.com", str "/detail",
        refParam (str "invite_code") referral ++
          [(str "id", id), (str "type", mpStr)], []⟩
  | .loongbuy =>
    .ok ⟨str "https:", str "www.loongbuy.com", str "/product-details",
      [(str "url", (generateRawLink marketplace id).href)] ++
        refParam (str "invitecode") referral, []⟩
  | .raw => .ok (generateRawLink marketplace id)

/-- The reduced `generateAgentLink` variant (second function in the sources
file): identical branches for the agents it handles; every other agent falls
through to the final `Unsupported agent` throw. -/
def generateAgentLinkReduced (agent : AgentWithRaw) (marketplace : Marketplace) (id : Str)
    (referral : Option Str) (ra : Option Str) : Except Str Url :=
  match agent with
  | .pandabuy =>
    .ok ⟨str "https:", str "www.pandabuy.com", str "/product",
      [(str "ra", ra.getD (str "1")), (str "url", (generateRawLink marketplace id).href)] ++
        refParam (str "inviteCode") referral, []⟩
  | .wegobuy =>
    .ok ⟨str "https:", str "www.wegobuy.com", str "/en/page/buy",
      [(str "from", str "search-input"), (str "url", (generateRawLink marketplace id).href)] ++
        refParam (str "partnercode") referral, []⟩
  | .superbuy =>
    .ok ⟨str "https:", str "www.superbuy.com", str "/en/page/buy",
      [(str "from", str "search-input"), (str "url", (generateRawLink marketplace id).href)] ++
        refParam (str "partnercode") referral, []⟩
  | .sugargoo =>
    .ok ⟨str "https:", str "www.sugargoo.com", str "/", [],
      str "/home/productDetail?" ++
        renderParams ([(str "productLink",
          encodeURIComponentStr (generateRawLink marketplace id).href)] ++
          refParam (str "memberId") referral)⟩
  | .cssbuy =>
    let ps := refParam (str "promotionCode") referral
    match marketplace with
    | .weidian =>
      .ok ⟨str "https:", str "www.cssbuy.com", str "/item-micro-" ++ id ++ str ".html", ps, []⟩
    | .m1688 =>
      .ok ⟨str "https:", str "www.cssbuy.com", str "/item-1688-" ++ id ++ str ".html", ps, []⟩
    | _ =>
      .ok ⟨str "https:", str "www.cssbuy.com", str "/item-" ++ id ++ str ".html", ps, []⟩
  | .hagobuy =>
    .ok ⟨str "https:", str "www.hagobuy.com", str "/item/details",
      [(str "url", (generateRawLink marketplace id).href)] ++
        refParam (str "affcode") referral, []⟩
  | .kameymall =>
    .ok ⟨str "https:", str "www.kameymall.com", str "/purchases/search/item",
      [(str "url", (generateRawLink marketplace id).href)] ++
        refParam (str "code") referral, []⟩
  | .cnfans =>
    let st : Str :=
      match marketplace with
      | .taobao | .tmall => str "taobao"
      | .weidian => str "weidian"
      | .m1688 => str "ali_1688"
    .ok ⟨str "https:", str "cnfans.com", str "/product/",
      [(str "shop_type", st), (str "id", id)] ++ refParam (str "ref") referral, []⟩
  | .mulebuy =>
    let st : Str :=
      match marketplace with
      | .taobao | .tmall => str "taobao"
      | .weidian => str "weidian"
      | .m1688 => str "ali_1688"
    .ok ⟨str "https:", str "mulebuy.com", str "/product/",
      [(str "shop_type", st), (str "id", id)] ++ refParam (str "ref") referral, []⟩
  | .ezbuycn =>
    .ok ⟨str "https:", str "ezbuycn.com", str "/api/chaid.aspx",
      [(str "key", (generateRawLink marketplace id).href)], []⟩
  | .hoobuy =>
    let ps := refParam (str "inviteCode") referral
    match marketplace with
    | .m1688 => .ok ⟨str "https:", str "www.hoobuy.com", str "/product/0/" ++ id, ps, []⟩
    | .taobao | .tmall =>
      .ok ⟨str "https:", str "www.hoobuy.com", str "/product/1/" ++ id, ps, []⟩
    | .weidian => .ok ⟨str "https:", str "www.hoobuy.com", str "/product/2/" ++ id, ps, []⟩
  | .allchinabuy =>
    .ok ⟨str "https:", str "www.allchinabuy.com", str "/en/page/buy",
      [(str "from", str "search-input"), (str "url", (generateRawLink marketplace id).href)] ++
        refParam (str "partnercode") referral, []⟩
  | .basetao =>
    let corrected := if marketplace = .tmall then Marketplace.taobao else marketplace
    .ok ⟨str "https:", str "www.basetao.com",
      str "/best-taobao-agent-service/products/agent/" ++ marketplaceName corrected ++
        str "/" ++ id ++ str ".html", [], []⟩
  | .eastmallbuy =>
    .ok ⟨str "https:", str "eastmallbuy.com", str "/index/item/index.html",
      [(str "searchlang", str "en"), (str "url", (generateRawLink marketplace id).href)] ++
        refParam (str "inviter") referral, []⟩
  | .hubbuycn =>
    .ok ⟨str "https:", str "www.hubbuycn.com", str "/index/item/index.html",
      [(str "searchlang", str "en"), (str "url", (generateRawLink marketplace id).href)] ++
        refParam (str "inviter") referral, []⟩
  | .joyabuy =>
    let st : Str :=
      match marketplace with
      | .taobao | .tmall => str "taobao"
      | .weidian => str "weidian"
      | .m1688 => str "ali_1688"
    .ok ⟨str "https:", str "joyabuy.com", str "/product/",
      [(str "shop_type", st), (str "id", id)] ++ refParam (str "ref") referral, []⟩
  | .raw => .ok (generateRawLink marketplace id)
  | a => .error (str "Unsupported agent: " ++ agentName a)

/-! ### Agent detection and decoding -/

/-- Modelled from the spec: hostname classification ignoring a leading
`www.` / `m.` (the detector file is not among the sources). -/
def stripMobileWww (h : Str) : Str :=
  if strStarts (str "www.") h then h.drop 4
  else if strStarts (str "m.") h then h.drop 2
  else h

/-- Modelled from the spec: the agent host registry (first match wins, hosts
mutually exclusive by construction). -/
def agentByHost (h : Str) : Option AgentWithRaw :=
  if h = str "pandabuy.com" then some .pandabuy
  else if h = str "wegobuy.com" then some .wegobuy
  else if h = str "superbuy.com" then some .superbuy
  else if h = str "sugargoo.com" then some .sugargoo
  else if h = str "cssbuy.com" then some .cssbuy
  else if h = str "hagobuy.com" then some .hagobuy
  else if h = str "hegobuy.com" then some .hegobuy
  else if h = str "kameymall.com" then some .kameymall
  else if h = str "cnfans.com" then some .cnfans
  else if h = str "mulebuy.com" then some .mulebuy
  else if h = str "ezbuycn.com" then some .ezbuycn
  else if h = str "hoobuy.com" then some .hoobuy
  else if h = str "allchinabuy.com" then some .allchinabuy
  else if h = str "basetao.com" then some .basetao
  else if h = str "eastmallbuy.com" then some .eastmallbuy
  else if h = str "hubbuycn.com" then some .hubbuycn
  else if h = str "joyabuy.com" then some .joyabuy
  else if h = str "orientdig.com" then some .orientdig
  else if h = str "oopbuy.com" then some .oopbuy
  else if h = str "lovegobuy.com" then some .lovegobuy
  else if h = str "blikbuy.com" then some .blikbuy
  else if h = str "ponybuy.com" then some .ponybuy
  else if h = str "panglobalbuy.com" then some .panglobalbuy
  else if h = str "sifubuy.com" then some .sifubuy
  else if h = str "loongbuy.com" then some .loongbuy
  else none

/-- Modelled from the spec: `detectAgent`, classifying a URL by hostname. -/
def detectAgent (u : Url) : Option AgentWithRaw := agentByHost (stripMobileWww u.host)

/-- Modelled from the spec: `generateProperLink`, the raw-link template as a
string (used by `decryptCssbuy`). -/
def generateProperLink (m : Marketplace) (id : Str) : Str := (generateRawLink m id).href

/-- Port of `decryptCssbuy` (in the sources): `pathname.split('-')[idx]` with an
out-of-range index is a thrown `TypeError` in JS, modelled as `Except.error`;
`.split('.')[0]` of the segment is the candidate id. -/
def cssbuyIdFrom (u : Url) (idx : Nat) : Except Str Str :=
  match (splitAllChar '-' u.pathname).get? idx with
  | none => .error (str "TypeError: Cannot read properties of undefined")
  | some seg => .ok ((splitAllChar '.' seg).headD [])

def decryptCssbuyTaobao (u : Url) : Except Str (Option Url) :=
  if strStarts (str "/item") u.pathname then
    match cssbuyIdFrom u 1 with
    | .error e => .error e
    | .ok idPart =>
      if idPart = [] then .ok none
      else (parseUrl (generateProperLink .taobao idPart)).map some
  else .ok none

def decryptCssbuy1688 (u : Url) : Except Str (Option Url) :=
  if strStarts (str "/item-1688") u.pathname then
    match cssbuyIdFrom u 2 with
    | .error e => .error e
    | .ok idPart =>
      if idPart = [] then decryptCssbuyTaobao u
      else (parseUrl (generateProperLink .m1688 idPart)).map some
  else decryptCssbuyTaobao u

/-- Port of `decryptCssbuy` (in the sources): the three path shapes are tried
in order (`/item-micro`, `/item-1688`, `/item`); a falsy id falls through to
the next shape; `undefined` means no shape matched. -/
def decryptCssbuy (u : Url) : Except Str (Option Url) :=
  if strStarts (str "/item-micro") u.pathname then
    match cssbuyIdFrom u 2 with
    | .error e => .error e
    | .ok idPart =>
      if idPart = [] then decryptCssbuy1688 u
      else (parseUrl (generateProperLink .weidian idPart)).map some
  else decryptCssbuy1688 u

/-- Modelled from the spec: `decodeCssbuy` wraps `decryptCssbuy` and fails when
it yields nothing. -/
def decodeCssbuy (u : Url) : Except Str Url :=
  match decryptCssbuy u with
  | .error e => .error e
  | .ok none => .error (str "cssbuy link could not be decrypted")
  | .ok (some r) => .ok r

/-- Modelled from the spec (Embedded-URL shape): read a named query parameter
holding the embedded link and parse it. -/
def decodeParamUrl (name : Str) (errMsg : Str) (u : Url) : Except Str Url :=
  match getParam u.params name with
  | none => .error errMsg
  | some v => parseUrl v

def decodeSuperbuy (u : Url) : Except Str Url :=
  decodeParamUrl (str "url") (str "Superbuy url parameter not found") u

def decodeHubbuyCn (u : Url) : Except Str Url :=
  decodeParamUrl (str "url") (str "HubbuyCn url parameter not found") u

def decodeEzbuyCn (u : Url) : Except Str Url :=
  decodeParamUrl (str "key") (str "EzbuyCn key parameter not found") u

/-- Modelled from the spec (double-encoding agent): read `productLink` (from the
hash-routed query when present), percent-decode a second time, parse. -/
def decodeSugargoo (u : Url) : Except Str Url :=
  let ps :=
    match splitFirstChar '?' u.hash with
    | (_, some q) => parseParams q
    | (_, none) => u.params
  match getParam ps (str "productLink") with
  | none => .error (str "Sugargoo productLink parameter not found")
  | some v => parseUrl (percentDecode v)

/-- Modelled from the spec (shop_type/id shape shared by the cnfans family). -/
def decodeShopTypeId (missing : Str) (u : Url) : Except Str Url :=
  match getParam u.params (str "shop_type"), getParam u.params (str "id") with
  | some st, some id =>
    if st = str "taobao" then .ok (generateRawLink .taobao id)
    else if st = str "weidian" then .ok (generateRawLink .weidian id)
    else if st = str "ali_1688" then .ok (generateRawLink .m1688 id)
    else .error (str "Shop type could not be matched")
  | _, _ => .error missing

def decodeCnFans (u : Url) : Except Str Url :=
  decodeShopTypeId (str "Missing parameters for CnFans link") u

def decodeMulebuy (u : Url) : Except Str Url :=
  decodeShopTypeId (str "Missing parameters for Mulebuy link") u

def decodeJoyabuy (u : Url) : Except Str Url :=
  decodeShopTypeId (str "Missing parameters for Joyabuy link") u

def decodeOrientdig (u : Url) : Except Str Url :=
  decodeShopTypeId (str "Missing parameters for Orientdig link") u

/-- Modelled from the spec (path-segment shape with a positional numeric code
requiring a small reverse lookup): `/product/N/id` and the mobile
`/m/product/N/id`. -/
def decodeHoobuyCode (code id : Str) : Except Str Url :=
  if code = str "0" then .ok (generateRawLink .m1688 id)
  else if code = str "1" then .ok (generateRawLink .taobao id)
  else if code = str "2" then .ok (generateRawLink .weidian id)
  else .error (str "Hoobuy marketplace code could not be matched")

def decodeHoobuy (u : Url) : Except Str Url :=
  match splitAllChar '/' u.pathname with
  | [_, seg1, code, id] =>
    if seg1 = str "product" then decodeHoobuyCode code id
    else .error (str "Hoobuy link could not be decoded")
  | [_, segM, seg1, code, id] =>
    if segM = str "m" ∧ seg1 = str "product" then decodeHoobuyCode code id
    else .error (str "Hoobuy link could not be decoded")
  | _ => .error (str "Hoobuy link could not be decoded")

/-- Modelled from the spec (path-segment shape): `/best-taobao-agent-service/
products/agent/<marketplace>/<id>.html`. -/
def decodeBasetao (u : Url) : Except Str Url :=
  match splitAllChar '/' u.pathname with
  | [_, _, _, agentSeg, mp, idHtml] =>
    if agentSeg = str "agent" then
      let id := (splitAllChar '.' idHtml).headD []
      if mp = str "taobao" then .ok (generateRawLink .taobao id)
      else if mp = str "weidian" then .ok (generateRawLink .weidian id)
      else if mp = str "1688" then .ok (generateRawLink .m1688 id)
      else .error (str "Basetao marketplace could not be matched")
    else .error (str "Basetao link could not be decoded")
  | _ => .error (str "Basetao link could not be decoded")

/-- Modelled from the spec (structurally undecodable subset): a purely numeric
second path segment is a purchase-history page; otherwise the embedded `url`
parameter is read. -/
def decodeKameymall (u : Url) : Except Str Url :=
  match splitAllChar '/' u.pathname with
  | _ :: _ :: s2 :: _ =>
    if s2 ≠ [] ∧ digitsOnly s2 = true then
      .error (str "Kameymall link is a purchase history link. This type of link cannot be decoded.")
    else decodeParamUrl (str "url") (str "Kameymall url parameter not found") u
  | _ => decodeParamUrl (str "url") (str "Kameymall url parameter not found") u

/-- Modelled from the spec (path-segment shape): `/product/<marketplace>/<id>`
with the reverse of `oopbuyMarketplaceStrings`. -/
def decodeOopbuy (u : Url) : Except Str Url :=
  match splitAllChar '/' u.pathname with
  | [_, prodSeg, mpStr, id] =>
    if prodSeg = str "product" then
      if mpStr = str "taobao" then .ok (generateRawLink .taobao id)
      else if mpStr = str "weidian" then .ok (generateRawLink .weidian id)
      else if mpStr = str "1688" then .ok (generateRawLink .m1688 id)
      else .error (str "Oopbuy marketplace could not be matched")
    else .error (str "Oopbuy link could not be decoded")
  | _ => .error (str "Oopbuy link could not be decoded")

/-- Modelled from the spec: `id` and `shop_type` query parameters. -/
def decodeLovegobuy (u : Url) : Except Str Url :=
  match getParam u.params (str "id"), getParam u.params (str "shop_type") with
  | some id, some st =>
    if st = str "taobao" then .ok (generateRawLink .taobao id)
    else if st = str "weidian" then .ok (generateRawLink .weidian id)
    else if st = str "1688" then .ok (generateRawLink .m1688 id)
    else .error (str "Lovegobuy shop type could not be matched")
  | _, _ => .error (str "Missing parameters for Lovegobuy link")

/-- Modelled from the spec: `product_id` and `platform` query parameters. -/
def decodePonybuy (u : Url) : Except Str Url :=
  match getParam u.params (str "product_id"), getParam u.params (str "platform") with
  | some id, some st =>
    if st = str "taobao" then .ok (generateRawLink .taobao id)
    else if st = str "weidian" then .ok (generateRawLink .weidian id)
    else if st = str "1688" then .ok (generateRawLink .m1688 id)
    else .error (str "Ponybuy platform could not be matched")
  | _, _ => .error (str "Missing parameters for Ponybuy link")

/-- Modelled from the spec: hash-routed `type` and `offerId`, reversing
`panglobalbuyMarketplaceStrings`. -/
def decodePanglobalbuy (u : Url) : Except Str Url :=
  match splitFirstChar '?' u.hash with
  | (_, some q) =>
    let ps := parseParams q
    match getParam ps (str "type"), getParam ps (str "offerId") with
    | some t, some id =>
      if t = str "1" then .ok (generateRawLink .taobao id)
      else if t = str "2" then .ok (generateRawLink .weidian id)
      else if t = str "0" then .ok (generateRawLink .m1688 id)
      else .error (str "Panglobalbuy type could not be matched")
    | _, _ => .error (str "Missing parameters for Panglobalbuy link")
  | (_, none) => .error (str "Panglobalbuy link could not be decoded")

/-- Modelled from the spec: `id` and `type` query parameters, reversing
`sifubuyMarketplaceStrings`. -/
def decodeSifubuy (u : Url) : Except Str Url :=
  match getParam u.params (str "id"), getParam u.params (str "type") with
  | some id, some t =>
    if t = str "2" then .ok (generateRawLink .taobao id)
    else if t = str "1" then .ok (generateRawLink .weidian id)
    else if t = str "3" then .ok (generateRawLink .m1688 id)
    else .error (str "Sifubuy type could not be matched")
  | _, _ => .error (str "Missing parameters for Sifubuy link")

/-- The bespoke-decoder dispatch of `extractRawLink` (in the sources): agents
without a bespoke decoder throw `Agent does not have a decoder`. -/
def bespokeDecode (agent : AgentWithRaw) (u : Url) : Except Str Url :=
  match agent with
  | .cssbuy => decodeCssbuy u
  | .sugargoo => decodeSugargoo u
  | .superbuy => decodeSuperbuy u
  | .cnfans => decodeCnFans u
  | .mulebuy => decodeMulebuy u
  | .joyabuy => decodeJoyabuy u
  | .orientdig => decodeOrientdig u
  | .hoobuy => decodeHoobuy u
  | .basetao => decodeBasetao u
  | .hubbuycn => decodeHubbuyCn u
  | .kameymall => decodeKameymall u
  | .oopbuy => decodeOopbuy u
  | .lovegobuy => decodeLovegobuy u
  | .ponybuy => decodePonybuy u
  | .panglobalbuy => decodePanglobalbuy u
  | .ezbuycn => decodeEzbuyCn u
  | .sifubuy => decodeSifubuy u
  | _ => .error (str "Agent does not have a decoder. This may be expected.")

/-- The try-block of `extractRawLink` (in the sources): no detected agent is a
thrown error, otherwise the bespoke decoder runs. -/
def attemptDecode (u : Url) : Except Str Url :=
  match detectAgent u with
  | none => .error (str "Agent not detected.")
  | some a => bespokeDecode a u

/-- Modelled from the spec: `extractInnerParam`, the generic fallback read of
the conventional `url` parameter. -/
def extractInnerParam (u : Url) : Option Str := getParam u.params (str "url")

/-- The error wrapping of the exhausted fallback in `extractRawLink` (in the
sources): carries the original message and the offending URL. -/
def fallbackFailMsg (e : Str) (link : Url) : Str :=
  str "Error extracting inner link. Fallback unsuccessful. Error: (" ++ e ++
    str ") - " ++ link.href

/-- Port of `extractRawLink` (in the sources).  The external decryption
collaborator `decryptPandabuy` is passed as the opaque `decrypt` argument (the
spec treats it as an external collaborator).  Any error of the try-block falls
into the generic fallback; a `PJ`-prefixed pandabuy token is routed to
`decrypt`; otherwise the inner parameter is parsed as a URL, percent-decoding
once more if direct parsing fails. -/
def extractRawLink (decrypt : Str → Str) (link : Url) : Except Str Url :=
  match attemptDecode link with
  | .ok r => .ok r
  | .error e =>
    match extractInnerParam link with
    | none => .error (fallbackFailMsg e link)
    | some inner =>
      if decide (detectAgent link = some .pandabuy) && strStarts (str "PJ") inner then
        parseUrl (decrypt inner)
      else
        match parseUrl inner with
        | .ok u => .ok u
        | .error _ => parseUrl (percentDecode inner)

/-! ### Store-page variant and the CnStoreLink object -/

/-- Modelled from the spec: the store-variant marketplace short tags (`t=wd`
for weidian is pinned by the concrete scenario in the spec and the in-src
store test). -/
def storeMarketplaceShort : Marketplace → Str
  | .taobao => str "tb"
  | .tmall => str "tb"
  | .weidian => str "wd"
  | .m1688 => str "1688"

/-- Modelled from the spec: the store-page `generateAgentLink` (its source file
is not among the sources; the pandabuy branch is pinned by the in-src test:
`https://www.pandabuy.com/shopdetail?ra=1&t=wd&id=<id>&inviteCode=<ref>`;
agents without store pages fail as the in-src test expects). -/
def storeGenerateAgentLink (agent : AgentWithRaw) (marketplace : Marketplace) (id : Str)
    (referral : Option Str) (ra : Option Str) : Except Str Url :=
  match agent with
  | .pandabuy =>
    .ok ⟨str "https:", str "www.pandabuy.com", str "/shopdetail",
      [(str "ra", ra.getD (str "1")), (str "t", storeMarketplaceShort marketplace),
        (str "id", id)] ++ refParam (str "inviteCode") referral, []⟩
  | a => .error (str "The agent " ++ agentName a ++ str " does not support store pages")

/-- Modelled from the spec: decoding a pandabuy store link back to the
canonical (marketplace, id) pair, reversing `storeMarketplaceShort`. -/
def storeDecodePandabuy (u : Url) : Except Str (Marketplace × Str) :=
  match getParam u.params (str "t"), getParam u.params (str "id") with
  | some t, some id =>
    if t = str "wd" then .ok (.weidian, id)
    else if t = str "tb" then .ok (.taobao, id)
    else if t = str "1688" then .ok (.m1688, id)
    else .error (str "Pandabuy store marketplace could not be matched")
  | _, _ => .error (str "Missing parameters for pandabuy store link")

/-- Modelled from the spec: `detectMarketplace`, classifying a URL as a direct
raw marketplace link by hostname. -/
def detectMarketplaceU (u : Url) : Option Marketplace :=
  let h := stripMobileWww u.host
  if h = str "item.taobao.com" then some .taobao
  else if h = str "detail.tmall.com" then some .tmall
  else if h = str "weidian.com" then some .weidian
  else if h = str "detail.1688.com" then some .m1688
  else none

def isRawLinkU (u : Url) : Bool := (detectMarketplaceU u).isSome

def isAgentLinkU (u : Url) : Bool := (detectAgent u).isSome

/-- Modelled from the spec: the store-side `extractRawLink` used by the
`CnStoreLink` constructor. -/
def storeExtractRawLink (u : Url) : Except Str Url :=
  match detectAgent u with
  | some .pandabuy =>
    match storeDecodePandabuy u with
    | .ok (m, id) => .ok (generateRawLink m id)
    | .error e => .error e
  | _ => .error (str "Agent store link could not be decoded")

/-- Modelled from the spec: `extractId`, reading the id of a raw link according
to its marketplace's id rule. -/
def extractIdU (u : Url) (m : Marketplace) : Except Str Str :=
  match m with
  | .taobao | .tmall =>
    match getParam u.params (str "id") with
    | some i => .ok i
    | none => .error (str "Id could not be extracted from link: " ++ u.href)
  | .weidian =>
    match getParam u.params (str "itemID") with
    | some i => .ok i
    | none => .error (str "Id could not be extracted from link: " ++ u.href)
  | .m1688 =>
    match splitAllChar '/' u.pathname with
    | [_, _, idHtml] => .ok ((splitAllChar '.' idHtml).headD [])
    | _ => .error (str "Id could not be extracted from link: " ++ u.href)

/-- The ambiguous store-link object (`CnStoreLink` in the sources): marketplace,
id, and the referral-by-agent map. -/
structure CnStoreLink where
  marketplace : Marketplace
  id : Str
  referrals : List (AgentWithRaw × Str)
deriving DecidableEq, Repr

/-- Port of the `CnStoreLink` constructor (in the sources): parse the href,
take it raw or decode it as an agent link, detect the marketplace of the inner
link, extract the id; every failure is a thrown `Error`, modelled as
`Except.error` of its message. -/
def cnStoreLinkMk (href : Str) (referrals : List (AgentWithRaw × Str)) :
    Except Str CnStoreLink :=
  match parseUrl href with
  | .error e => .error e
  | .ok link =>
    match
      (if isRawLinkU link then .ok link
       else if isAgentLinkU link then storeExtractRawLink link
       else .error (str "CnLink object could not be initialized. Neither agent nor raw link could be detected from: " ++ link.href)) with
    | .error e => .error e
    | .ok inner =>
      match detectMarketplaceU inner with
      | none =>
        .error (str "CnLink object could not be initialized. Marketplace could not be detected from inner link: " ++ inner.href)
      | some mp =>
        match extractIdU inner mp with
        | .error e => .error e
        | .ok id => .ok ⟨mp, id, referrals⟩

/-- The tagged result of the non-raising wrapper (`SafeInstantiateResult`). -/
inductive SafeInstantiateResult (α : Type) where
  | success (data : α)
  | failure (error : Str)
deriving DecidableEq, Repr

/-- Port of `CnStoreLink.safeInstantiate` (in the sources): the try/catch
wrapper around the constructor; the caught error's own message is returned. -/
def safeInstantiate (href : Str) (referrals : List (AgentWithRaw × Str)) :
    SafeInstantiateResult CnStoreLink :=
  match cnStoreLinkMk href referrals with
  | .ok c => .success c
  | .error e => .failure e

/-- Shared domain of the full and reduced `generateAgentLink` variants: the
agents for which the reduced variant has a branch. -/
def isSharedAgent : AgentWithRaw → Bool
  | .pandabuy | .wegobuy | .superbuy | .sugargoo | .cssbuy | .hagobuy | .kameymall
  | .cnfans | .mulebuy | .ezbuycn | .hoobuy | .allchinabuy | .basetao | .eastmallbuy
  | .hubbuycn | .joyabuy | .raw => true
  | _ => false

/-- The (agent, marketplace) pairs outside an agent's supported marketplace
subset: the marketplace-string registries of the gated agents are partial. -/
def unsupportedMarketplacePair (a : AgentWithRaw) (m : Marketplace) : Bool :=
  match a with
  | .panglobalbuy => (panglobalbuyMarketplaceStrings m).isNone
  | .sifubuy => (sifubuyMarketplaceStrings m).isNone
  | _ => false

/-- The effective query of a generated link: hash-routed agents carry their
query inside the fragment, the rest in `searchParams`. -/
def queryOf (u : Url) : List (Str × Str) :=
  match splitFirstChar '?' u.hash with
  | (_, some q) => parseParams q
  | (_, none) => u.params

/-- A kameymall purchase-history-shaped link (purely numeric second path
segment) that also carries a generic `url` parameter. -/
def kameymallHistLinkWithUrl : Url :=
  ⟨str "https:", str "www.kameymall.com", str "/purchases/12345/item",
    [(str "url", str "https://item.taobao.com/item.htm?id=1")], []⟩

/-- The generic embedded-`url` parameter name of each URL-embedding agent
(`key` for ezbuycn); `none` for agents that embed the id instead. -/
def urlEmbedKey : AgentWithRaw → Option Str
  | .pandabuy | .wegobuy | .superbuy | .hagobuy | .hegobuy | .kameymall
  | .allchinabuy | .eastmallbuy | .hubbuycn | .blikbuy | .loongbuy => some (str "url")
  | .ezbuycn => some (str "key")
  | _ => none

/-- The referral parameter name each agent defines (from the per-agent
`if (referral)` branches of the full variant); `none` when the agent takes no
referral parameter. -/
def referralParamName : AgentWithRaw → Option Str
  | .pandabuy => some (str "inviteCode")
  | .wegobuy => some (str "partnercode")
  | .superbuy => some (str "partnercode")
  | .sugargoo => some (str "memberId")
  | .cssbuy => some (str "promotionCode")
  | .hagobuy => some (str "affcode")
  | .hegobuy => some (str "affcode")
  | .kameymall => some (str "code")
  | .cnfans => some (str "ref")
  | .mulebuy => some (str "ref")
  | .ezbuycn => none
  | .hoobuy => some (str "inviteCode")
  | .allchinabuy => some (str "partnercode")
  | .basetao => none
  | .eastmallbuy => some (str "inviter")
  | .hubbuycn => some (str "inviter")
  | .joyabuy => some (str "ref")
  | .orientdig => some (str "ref")
  | .oopbuy => some (str "inviteCode")
  | .lovegobuy => some (str "invite_code")
  | .blikbuy => some (str "icode")
  | .ponybuy => some (str "tracking")
  | .panglobalbuy => some (str "share_id")
  | .sifubuy => some (str "invite_code")
  | .loongbuy => some (str "invitecode")
  | .raw => none

/-- JS truthiness of the optional referral: the parameter value that ends up
in the query (`none` for an omitted or empty referral). -/
def truthyRef : Option Str → Option Str
  | some r => if r = [] then none else some r
  | none => none

def exceptIsOk : Except Str Url → Bool
  | .ok _ => true
  | .error _ => false

/-! ### Basic lemmas about the scanning primitives -/

theorem strStarts_self_append (s t : Str) : strStarts s (s ++ t) = true := by
  induction s with
  | nil => rfl
  | cons c cs ih => simp [strStarts, ih]

theorem strContains_of_starts {needle hay : Str} (h : strStarts needle hay = true) :
    strContains needle hay = true := by
  cases hay with
  | nil => cases needle with
    | nil => rfl
    | cons c cs => simp [strStarts] at h
  | cons c t => simp [strContains, h]

theorem strContains_append_left (a : Str) {needle s : Str}
    (h : strContains needle s = true) : strContains needle (a ++ s) = true := by
  induction a with
  | nil => simpa using h
  | cons c cs ih => simp [strContains, ih]

theorem strContains_mid (a b : Str) (needle : Str) :
    strContains needle (a ++ needle ++ b) = true := by
  rw [List.append_assoc]
  exact strContains_append_left a (strContains_of_starts (strStarts_self_append _ _))

theorem strContains_self (s : Str) : strContains s s = true := by
  have := strContains_mid [] [] s
  simpa using this

theorem splitFirstChar_not_mem {c : Char} {s : Str} (h : c ∉ s) :
    splitFirstChar c s = (s, none) := by
  induction s with
  | nil => rfl
  | cons x xs ih =>
    have hx : ¬(x = c) := fun he => h (he ▸ List.mem_cons_self x xs)
    have hxs : c ∉ xs := fun hm => h (List.mem_cons_of_mem _ hm)
    simp [splitFirstChar, hx, ih hxs]

theorem splitFirstChar_append {c : Char} {xs ys : Str} (h : c ∉ xs) :
    splitFirstChar c (xs ++ c :: ys) = (xs, some ys) := by
  induction xs with
  | nil => simp [splitFirstChar]
  | cons x t ih =>
    have hx : ¬(x = c) := fun he => h (he ▸ List.mem_cons_self x t)
    have ht : c ∉ t := fun hm => h (List.mem_cons_of_mem _ hm)
    simp [splitFirstChar, hx, ih ht]

theorem splitAllChar_ne_nil (c : Char) (s : Str) : splitAllChar c s ≠ [] := by
  induction s with
  | nil => simp [splitAllChar]
  | cons x xs ih =>
    simp only [splitAllChar]
    by_cases hx : x = c
    · simp [hx]
    · simp only [hx, if_false]
      cases hr : splitAllChar c xs with
      | nil => simp
      | cons h t => simp

theorem splitAllChar_not_mem {c : Char} {s : Str} (h : c ∉ s) :
    splitAllChar c s = [s] := by
  induction s with
  | nil => rfl
  | cons x xs ih =>
    have hx : ¬(x = c) := fun he => h (he ▸ List.mem_cons_self x xs)
    have hxs : c ∉ xs := fun hm => h (List.mem_cons_of_mem _ hm)
    simp [splitAllChar, hx, ih hxs]

theorem splitAllChar_append {c : Char} {xs ys : Str} (h : c ∉ xs) :
    splitAllChar c (xs ++ c :: ys) = xs :: splitAllChar c ys := by
  induction xs with
  | nil => simp [splitAllChar]
  | cons x t ih =>
    have hx : ¬(x = c) := fun he => h (he ▸ List.mem_cons_self x t)
    have ht : c ∉ t := fun hm => h (List.mem_cons_of_mem _ hm)
    have ihr := ih ht
    simp [splitAllChar, hx, ihr]

theorem spanStr_append {p : Char → Bool} {xs : Str} (h : ∀ a ∈ xs, p a = true)
    {y : Char} (hy : p y = false) (ys : Str) :
    spanStr p (xs ++ y :: ys) = (xs, y :: ys) := by
  induction xs with
  | nil => simp [spanStr, hy]
  | cons x t ih =>
    have hx : p x = true := h x (List.mem_cons_self x t)
    have ht : ∀ a ∈ t, p a = true := fun a ha => h a (List.mem_cons_of_mem _ ha)
    simp [spanStr, hx, ih ht]

theorem spanStr_all {p : Char → Bool} {xs : Str} (h : ∀ a ∈ xs, p a = true) :
    spanStr p xs = (xs, []) := by
  induction xs with
  | nil => rfl
  | cons x t ih =>
    have hx : p x = true := h x (List.mem_cons_self x t)
    have ht : ∀ a ∈ t, p a = true := fun a ha => h a (List.mem_cons_of_mem _ ha)
    simp [spanStr, hx, ih ht]

theorem hexVal_hexDigitChar : ∀ d : Nat, d < 16 → hexVal (hexDigitChar d) = some d := by
  decide

theorem plainHex_hexDigitChar : ∀ d : Nat, d < 16 → plainHexChar (hexDigitChar d) = true := by
  decide

theorem char_toNat_lt (c : Char) : c.toNat < 1114112 := by
  have h := c.valid
  unfold UInt32.isValidChar Nat.isValidChar at h
  have : Char.toNat c = c.val.toNat := rfl
  omega

theorem charOfNat_toNat (c : Char) : Char.ofNat c.toNat = c := Char.ofNat_toNat c

theorem utf8Bytes_lt (n : Nat) (h : n < 1114112) : ∀ b ∈ utf8Bytes n, b < 256 := by
  intro b hb
  unfold utf8Bytes at hb
  split_ifs at hb <;> simp at hb <;> omega

theorem utf8Bytes_ascii {n : Nat} (h : n < 128) : utf8Bytes n = [n] := by
  unfold utf8Bytes
  rw [if_pos h]

theorem isFormSafe_ascii {c : Char} (h : isFormSafe c = true) : asciiChar c = true := by
  unfold isFormSafe isAlphanumChar at h
  unfold asciiChar
  simp only [Bool.or_eq_true, Bool.and_eq_true, decide_eq_true_eq, beq_iff_eq] at h ⊢
  rcases h with ((((h | h) | h) | h) | h) | h | h <;> first
    | omega
    | (subst h; decide)
    | decide

theorem isUriSafe_ascii {c : Char} (h : isUriSafe c = true) : asciiChar c = true := by
  unfold isUriSafe isAlphanumChar at h
  unfold asciiChar
  simp only [Bool.or_eq_true, Bool.and_eq_true, decide_eq_true_eq, beq_iff_eq] at h ⊢
  rcases h with (((((((((((h | h) | h) | h) | h) | h) | h) | h) | h) | h) | h) | h) <;> first
    | omega
    | (subst h; decide)
    | decide

theorem plainHex_ascii {c : Char} (h : plainHexChar c = true) : asciiChar c = true := by
  unfold plainHexChar at h
  unfold asciiChar
  simp only [Bool.or_eq_true, Bool.and_eq_true, decide_eq_true_eq] at h ⊢
  omega

theorem safeForm_ne {c d : Char} (h : isFormSafe c = true) (hd : isFormSafe d = false) :
    c ≠ d := fun he => by rw [he, hd] at h; cases h

theorem safeUri_ne {c d : Char} (h : isUriSafe c = true) (hd : isUriSafe d = false) :
    c ≠ d := fun he => by rw [he, hd] at h; cases h

theorem percentDecode_cons_ne {c : Char} (hc : ¬c = '%') (t : Str) :
    percentDecode (c :: t) = c :: percentDecode t := by
  rcases t with _ | ⟨a, _ | ⟨b, r⟩⟩ <;> simp [percentDecode, hc]

theorem formDecode_cons_ne {c : Char} (hc1 : ¬c = '+') (hc2 : ¬c = '%') (t : Str) :
    formDecode (c :: t) = c :: formDecode t := by
  rcases t with _ | ⟨a, _ | ⟨b, r⟩⟩ <;> simp [formDecode, hc1, hc2]

theorem percentDecode_percentByte (n : Nat) (hn : n < 256) (t : Str) :
    percentDecode (percentByte n ++ t) = Char.ofNat n :: percentDecode t := by
  have h1 : hexVal (hexDigitChar (n / 16)) = some (n / 16) :=
    hexVal_hexDigitChar _ (by omega)
  have h2 : hexVal (hexDigitChar (n % 16)) = some (n % 16) :=
    hexVal_hexDigitChar _ (by omega)
  simp [percentByte, percentDecode, h1, h2, Nat.div_add_mod]

theorem formDecode_percentByte (n : Nat) (hn : n < 256) (t : Str) :
    formDecode (percentByte n ++ t) = Char.ofNat n :: formDecode t := by
  have h1 : hexVal (hexDigitChar (n / 16)) = some (n / 16) :=
    hexVal_hexDigitChar _ (by omega)
  have h2 : hexVal (hexDigitChar (n % 16)) = some (n % 16) :=
    hexVal_hexDigitChar _ (by omega)
  simp [percentByte, formDecode, h1, h2, Nat.div_add_mod]

theorem percentDecode_encChar {c : Char} (h : asciiChar c = true) (t : Str) :
    percentDecode (encodeURIComponentChar c ++ t) = c :: percentDecode t := by
  unfold encodeURIComponentChar
  by_cases hs : isUriSafe c = true
  · rw [if_pos hs]
    have hne : ¬c = '%' := safeUri_ne hs (by decide)
    simpa using percentDecode_cons_ne hne t
  · rw [if_neg hs]
    have hascii : c.toNat < 128 := by
      unfold asciiChar at h; simpa using h
    rw [utf8Bytes_ascii hascii]
    simp only [List.map_cons, List.map_nil, List.flatten_cons, List.flatten_nil,
      List.append_nil]
    rw [percentDecode_percentByte _ (by omega), charOfNat_toNat]

theorem formDecode_encChar {c : Char} (h : asciiChar c = true) (t : Str) :
    formDecode (formEncodeChar c ++ t) = c :: formDecode t := by
  unfold formEncodeChar
  by_cases hs : isFormSafe c = true
  · rw [if_pos hs]
    have hne1 : ¬c = '+' := safeForm_ne hs (by decide)
    have hne2 : ¬c = '%' := safeForm_ne hs (by decide)
    simpa using formDecode_cons_ne hne1 hne2 t
  · rw [if_neg hs]
    by_cases hsp : c = ' '
    · subst hsp
      simp [formDecode]
    · rw [if_neg (by simpa using hsp)]
      have hascii : c.toNat < 128 := by
        unfold asciiChar at h; simpa using h
      rw [utf8Bytes_ascii hascii]
      simp only [List.map_cons, List.map_nil, List.flatten_cons, List.flatten_nil,
        List.append_nil]
      rw [formDecode_percentByte _ (by omega), charOfNat_toNat]

theorem percentDecode_encode {s : Str} (h : asciiStr s = true) :
    percentDecode (encodeURIComponentStr s) = s := by
  induction s with
  | nil => rfl
  | cons c cs ih =>
    unfold asciiStr at h
    simp only [List.all_cons, Bool.and_eq_true] at h
    have := percentDecode_encChar h.1 (encodeURIComponentStr cs)
    unfold encodeURIComponentStr
    rw [this, ih (by unfold asciiStr; exact h.2)]

theorem formDecode_encode {s : Str} (h : asciiStr s = true) :
    formDecode (formEncodeStr s) = s := by
  induction s with
  | nil => rfl
  | cons c cs ih =>
    unfold asciiStr at h
    simp only [List.all_cons, Bool.and_eq_true] at h
    have := formDecode_encChar h.1 (formEncodeStr cs)
    unfold formEncodeStr
    rw [this, ih (by unfold asciiStr; exact h.2)]

theorem percentDecode_id {s : Str} (h : ∀ c ∈ s, ¬c = '%') : percentDecode s = s := by
  induction s with
  | nil => rfl
  | cons c cs ih =>
    rw [percentDecode_cons_ne (h c (List.mem_cons_self c cs)),
      ih (fun d hd => h d (List.mem_cons_of_mem _ hd))]

theorem formDecode_id {s : Str} (h : ∀ c ∈ s, ¬c = '%' ∧ ¬c = '+') : formDecode s = s := by
  induction s with
  | nil => rfl
  | cons c cs ih =>
    rw [formDecode_cons_ne (h c (List.mem_cons_self c cs)).2
      (h c (List.mem_cons_self c cs)).1,
      ih (fun d hd => h d (List.mem_cons_of_mem _ hd))]

theorem mem_percentByte {x : Char} {n : Nat} (hn : n < 256) (hx : x ∈ percentByte n) :
    x = '%' ∨ plainHexChar x = true := by
  unfold percentByte at hx
  simp only [List.mem_cons, List.mem_singleton, List.not_mem_nil, or_false] at hx
  rcases hx with rfl | rfl | rfl
  · exact Or.inl rfl
  · exact Or.inr (plainHex_hexDigitChar _ (by omega))
  · exact Or.inr (plainHex_hexDigitChar _ (by omega))

theorem mem_bytesEncoding {x : Char} {c : Char}
    (hx : x ∈ ((utf8Bytes c.toNat).map percentByte).flatten) :
    x = '%' ∨ plainHexChar x = true := by
  rw [List.mem_flatten] at hx
  obtain ⟨l, hl, hxl⟩ := hx
  rw [List.mem_map] at hl
  obtain ⟨b, hb, rfl⟩ := hl
  exact mem_percentByte (utf8Bytes_lt _ (char_toNat_lt c) b hb) hxl

theorem mem_formEncodeChar {x c : Char} (hx : x ∈ formEncodeChar c) :
    (isFormSafe c = true ∧ x = c) ∨ x = '+' ∨ x = '%' ∨ plainHexChar x = true := by
  unfold formEncodeChar at hx
  by_cases hs : isFormSafe c = true
  · rw [if_pos hs] at hx
    simp only [List.mem_singleton] at hx
    exact Or.inl ⟨hs, hx⟩
  · rw [if_neg hs] at hx
    by_cases hsp : (c == ' ') = true
    · rw [if_pos hsp] at hx
      simp only [List.mem_singleton] at hx
      exact Or.inr (Or.inl hx)
    · rw [if_neg hsp] at hx
      rcases mem_bytesEncoding hx with h | h
      · exact Or.inr (Or.inr (Or.inl h))
      · exact Or.inr (Or.inr (Or.inr h))

theorem mem_encChar {x c : Char} (hx : x ∈ encodeURIComponentChar c) :
    (isUriSafe c = true ∧ x = c) ∨ x = '%' ∨ plainHexChar x = true := by
  unfold encodeURIComponentChar at hx
  by_cases hs : isUriSafe c = true
  · rw [if_pos hs] at hx
    simp only [List.mem_singleton] at hx
    exact Or.inl ⟨hs, hx⟩
  · rw [if_neg hs] at hx
    exact Or.inr (mem_bytesEncoding hx)

theorem mem_formEncodeStr {x : Char} {s : Str} (hx : x ∈ formEncodeStr s) :
    (∃ c ∈ s, isFormSafe c = true ∧ x = c) ∨ x = '+' ∨ x = '%' ∨
      plainHexChar x = true := by
  induction s with
  | nil => cases hx
  | cons c cs ih =>
    unfold formEncodeStr at hx
    rw [List.mem_append] at hx
    rcases hx with hx | hx
    · rcases mem_formEncodeChar hx with ⟨h1, h2⟩ | h
      · exact Or.inl ⟨c, List.mem_cons_self c cs, h1, h2⟩
      · exact Or.inr h
    · rcases ih hx with ⟨d, hd, h1, h2⟩ | h
      · exact Or.inl ⟨d, List.mem_cons_of_mem _ hd, h1, h2⟩
      · exact Or.inr h

theorem mem_encStr {x : Char} {s : Str} (hx : x ∈ encodeURIComponentStr s) :
    (∃ c ∈ s, isUriSafe c = true ∧ x = c) ∨ x = '%' ∨ plainHexChar x = true := by
  induction s with
  | nil => cases hx
  | cons c cs ih =>
    unfold encodeURIComponentStr at hx
    rw [List.mem_append] at hx
    rcases hx with hx | hx
    · rcases mem_encChar hx with ⟨h1, h2⟩ | h
      · exact Or.inl ⟨c, List.mem_cons_self c cs, h1, h2⟩
      · exact Or.inr h
    · rcases ih hx with ⟨d, hd, h1, h2⟩ | h
      · exact Or.inl ⟨d, List.mem_cons_of_mem _ hd, h1, h2⟩
      · exact Or.inr h

/-- A delimiter char (not form-safe, not `+`/`%`, not a hex digit) never appears
in a form-encoded string.  Covers `&`, `=`, `?`, `#`, `/`. -/
theorem delim_not_mem_formEncodeStr {d : Char} (hd1 : isFormSafe d = false)
    (hd2 : ¬d = '+') (hd3 : ¬d = '%') (hd4 : plainHexChar d = false) (s : Str) :
    d ∉ formEncodeStr s := by
  intro hm
  rcases mem_formEncodeStr hm with ⟨c, _, h1, h2⟩ | h | h | h
  · rw [h2] at hd1; rw [hd1] at h1; cases h1
  · exact hd2 h
  · exact hd3 h
  · rw [h] at hd4; cases hd4

theorem ascii_formEncodeStr (s : Str) : asciiStr (formEncodeStr s) = true := by
  unfold asciiStr
  rw [List.all_eq_true]
  intro x hx
  rcases mem_formEncodeStr hx with ⟨c, _, h1, h2⟩ | h | h | h
  · rw [h2]; exact isFormSafe_ascii h1
  · rw [h]; decide
  · rw [h]; decide
  · exact plainHex_ascii h

theorem ascii_encStr (s : Str) : asciiStr (encodeURIComponentStr s) = true := by
  unfold asciiStr
  rw [List.all_eq_true]
  intro x hx
  rcases mem_encStr hx with ⟨c, _, h1, h2⟩ | h | h
  · rw [h2]; exact isUriSafe_ascii h1
  · rw [h]; decide
  · exact plainHex_ascii h

theorem formEncodeChar_ne_nil (c : Char) : formEncodeChar c ≠ [] := by
  unfold formEncodeChar
  by_cases hs : isFormSafe c = true
  · simp [hs]
  · rw [if_neg hs]
    by_cases hsp : (c == ' ') = true
    · simp [hsp]
    · rw [if_neg hsp]
      unfold utf8Bytes
      split_ifs <;> simp [percentByte]

theorem formEncodeStr_ne_nil {s : Str} (h : s ≠ []) : formEncodeStr s ≠ [] := by
  cases s with
  | nil => exact absurd rfl h
  | cons c cs =>
    unfold formEncodeStr
    intro he
    exact formEncodeChar_ne_nil c (List.append_eq_nil.mp he).1

/-! ### Digit strings -/

theorem digit_ascii {s : Str} (h : digitsOnly s = true) : asciiStr s = true := by
  unfold digitsOnly at h
  unfold asciiStr
  rw [List.all_eq_true] at h ⊢
  intro c hc
  have := h c hc
  unfold isDigitChar at this
  unfold asciiChar
  simp only [Bool.and_eq_true, decide_eq_true_eq] at this ⊢
  omega

theorem digit_ne_of_not_digit {c d : Char} (hc : isDigitChar c = true)
    (hd : isDigitChar d = false) : ¬c = d := fun he => by rw [he, hd] at hc; cases hc

theorem not_mem_of_digits {d : Char} (hd : isDigitChar d = false) {s : Str}
    (hs : digitsOnly s = true) : d ∉ s := by
  intro hm
  unfold digitsOnly at hs
  rw [List.all_eq_true] at hs
  exact digit_ne_of_not_digit (hs d hm) hd rfl

theorem digit_isFormSafe {c : Char} (h : isDigitChar c = true) : isFormSafe c = true := by
  have halnum : isAlphanumChar c = true := by
    unfold isAlphanumChar
    unfold isDigitChar at h
    simp only [Bool.or_eq_true, Bool.and_eq_true, decide_eq_true_eq] at h ⊢
    omega
  unfold isFormSafe
  rw [halnum]
  rfl

theorem formEncode_digit_char {c : Char} (h : isDigitChar c = true) :
    formEncodeChar c = [c] := by
  unfold formEncodeChar
  rw [if_pos (digit_isFormSafe h)]

theorem formEncode_digits {s : Str} (h : digitsOnly s = true) : formEncodeStr s = s := by
  induction s with
  | nil => rfl
  | cons c cs ih =>
    unfold digitsOnly at h
    simp only [List.all_cons, Bool.and_eq_true] at h
    unfold formEncodeStr
    rw [formEncode_digit_char h.1, ih (by unfold digitsOnly; exact h.2)]
    rfl

theorem amp_not_mem_formEncodeStr (s : Str) : '&' ∉ formEncodeStr s :=
  delim_not_mem_formEncodeStr (by decide) (by decide) (by decide) (by decide) s

theorem eq_not_mem_formEncodeStr (s : Str) : '=' ∉ formEncodeStr s :=
  delim_not_mem_formEncodeStr (by decide) (by decide) (by decide) (by decide) s

theorem amp_not_mem_pair (k v : Str) : '&' ∉ formEncodeStr k ++ '=' :: formEncodeStr v := by
  intro hm
  rcases List.mem_append.mp hm with h | h
  · exact amp_not_mem_formEncodeStr k h
  · rcases List.mem_cons.mp h with h | h
    · cases h
    · exact amp_not_mem_formEncodeStr v h

theorem parsePair_render {k v : Str} (hak : asciiStr k = true) (hav : asciiStr v = true) :
    parsePair (formEncodeStr k ++ '=' :: formEncodeStr v) = (k, v) := by
  unfold parsePair
  rw [splitFirstChar_append (eq_not_mem_formEncodeStr k)]
  show (formDecode (formEncodeStr k), formDecode (formEncodeStr v)) = (k, v)
  rw [formDecode_encode hak, formDecode_encode hav]

theorem parseParams_render (ps : List (Str × Str)) (hk : ∀ kv ∈ ps, kv.1 ≠ [])
    (ha : ∀ kv ∈ ps, asciiStr kv.1 = true ∧ asciiStr kv.2 = true) :
    parseParams (renderParams ps) = ps := by
  induction ps with
  | nil => rfl
  | cons kv rest ih =>
    obtain ⟨k, v⟩ := kv
    have hkk : k ≠ [] := hk (k, v) (List.mem_cons_self _ _)
    have hka : asciiStr k = true := (ha (k, v) (List.mem_cons_self _ _)).1
    have hva : asciiStr v = true := (ha (k, v) (List.mem_cons_self _ _)).2
    have hseg : formEncodeStr k ++ '=' :: formEncodeStr v ≠ [] := by
      intro he
      exact formEncodeStr_ne_nil hkk (List.append_eq_nil.mp he).1
    cases rest with
    | nil =>
      show parseParams (formEncodeStr k ++ '=' :: formEncodeStr v) = [(k, v)]
      unfold parseParams
      rw [splitAllChar_not_mem (amp_not_mem_pair k v)]
      simp [hseg, parsePair_render hka hva]
    | cons kv2 rest2 =>
      have hrest := ih (fun x hx => hk x (List.mem_cons_of_mem _ hx))
        (fun x hx => ha x (List.mem_cons_of_mem _ hx))
      show parseParams (formEncodeStr k ++ '=' :: formEncodeStr v ++
        '&' :: renderParams (kv2 :: rest2)) = (k, v) :: kv2 :: rest2
      unfold parseParams
      have hsplit : splitAllChar '&' (formEncodeStr k ++ '=' :: formEncodeStr v ++
          '&' :: renderParams (kv2 :: rest2)) =
          (formEncodeStr k ++ '=' :: formEncodeStr v) ::
            splitAllChar '&' (renderParams (kv2 :: rest2)) := by
        have := @splitAllChar_append '&' (formEncodeStr k ++ '=' :: formEncodeStr v)
          (renderParams (kv2 :: rest2)) (amp_not_mem_pair k v)
        rw [← this]
      rw [hsplit]
      simp only [List.filterMap_cons, if_neg hseg, parsePair_render hka hva]
      unfold parseParams at hrest
      rw [hrest]

/-- C2: encoding (weidian, "1625671124") for the representative store agent
(pandabuy) with referral "myC0d3" yields exactly
`https://www.pandabuy.com/shopdetail?ra=1&t=wd&id=1625671124&inviteCode=myC0d3`,
and decoding that URL yields (weidian, "1625671124"). -/
theorem c2_concrete_store_scenario :
    ∃ u : Url,
      storeGenerateAgentLink .pandabuy .weidian (str "1625671124") (some (str "myC0d3")) none =
        .ok u ∧
      u.href =
        str "https://www.pandabuy.com/shopdetail?ra=1&t=wd&id=1625671124&inviteCode=myC0d3" ∧
      storeDecodePandabuy u = .ok (.weidian, str "1625671124") := by
  exact ⟨⟨str "https:", str "www.pandabuy.com", str "/shopdetail",
    [(str "ra", str "1"), (str "t", str "wd"), (str "id", str "1625671124"),
      (str "inviteCode", str "myC0d3")], []⟩, rfl, by decide, rfl⟩

/-- C9: `safeInstantiate` never throws; it returns `success` with the
constructed object exactly when the constructor succeeds, and otherwise
`failure` carrying the thrown error's original message verbatim. -/
theorem c9_safe_instantiate_tagged (href : Str) (referrals : List (AgentWithRaw × Str)) :
    (∃ c, cnStoreLinkMk href referrals = .ok c ∧
      safeInstantiate href referrals = .success c) ∨
    (∃ e, cnStoreLinkMk href referrals = .error e ∧
      safeInstantiate href referrals = .failure e) := by
  cases h : cnStoreLinkMk href referrals with
  | ok c => exact Or.inl ⟨c, rfl, by simp [safeInstantiate, h]⟩
  | error e => exact Or.inr ⟨e, rfl, by simp [safeInstantiate, h]⟩

/-- C10: the full and reduced `generateAgentLink` variants agree extensionally
on every agent handled by both, for every marketplace, id, referral and ra. -/
theorem c10_variants_agree (a : AgentWithRaw) (h : isSharedAgent a = true)
    (m : Marketplace) (id : Str) (referral ra : Option Str) :
    generateAgentLink a m id referral ra = generateAgentLinkReduced a m id referral ra := by
  cases a <;> first
    | rfl
    | exact Bool.noConfusion h

/-- C10 witness: the two variants agree at a concrete shared input. -/
theorem c10_variants_agree_witness :
    generateAgentLink .pandabuy .weidian (str "7") none none =
      generateAgentLinkReduced .pandabuy .weidian (str "7") none none :=
  c10_variants_agree .pandabuy (by decide) .weidian (str "7") none none

/-- C4: for every (agent, marketplace) pair where the marketplace is outside
the agent's supported subset, `generateAgentLink` fails with the
unsupported-marketplace error and returns no URL. -/
theorem c4_marketplace_gating (a : AgentWithRaw) (m : Marketplace)
    (h : unsupportedMarketplacePair a m = true) (id : Str) (referral ra : Option Str) :
    ∃ e, generateAgentLink a m id referral ra = .error e ∧
      strStarts (str "Unsupported marketplace") e = true := by
  cases a <;> try exact Bool.noConfusion h
  · cases m <;> try exact Bool.noConfusion h
    exact ⟨_, rfl, by decide⟩
  · cases m <;> try exact Bool.noConfusion h
    exact ⟨_, rfl, by decide⟩

/-- C4 witness: panglobalbuy with tmall fails with the
unsupported-marketplace error. -/
theorem c4_marketplace_gating_witness :
    unsupportedMarketplacePair .panglobalbuy .tmall = true ∧
    ∃ e, generateAgentLink .panglobalbuy .tmall (str "1") none none = .error e ∧
      strStarts (str "Unsupported marketplace") e = true :=
  ⟨by decide, c4_marketplace_gating .panglobalbuy .tmall (by decide) (str "1") none none⟩

/-- C7: a pandabuy link whose inner parameter starts with `PJ` is routed to the
external decryption collaborator and the decrypted plaintext is parsed as the
raw URL; any other pandabuy token is treated as a plain (optionally
percent-encoded) URL. -/
theorem c7_pandabuy_cipher_routing (decrypt : Str → Str) (link : Url) (v : Str)
    (h1 : detectAgent link = some .pandabuy) (h2 : extractInnerParam link = some v) :
    (strStarts (str "PJ") v = true →
      extractRawLink decrypt link = parseUrl (decrypt v)) ∧
    (strStarts (str "PJ") v = false →
      extractRawLink decrypt link =
        match parseUrl v with
        | .ok u => .ok u
        | .error _ => parseUrl (percentDecode v)) := by
  have hatt : attemptDecode link =
      .error (str "Agent does not have a decoder. This may be expected.") := by
    unfold attemptDecode
    rw [h1]
    rfl
  constructor <;> intro hpj <;>
    simp [extractRawLink, hatt, h2, h1, hpj]

/-- C7 witness: a concrete pandabuy link with a `PJ` token routes to the
collaborator, and one with a plain token parses directly. -/
theorem c7_pandabuy_cipher_routing_witness :
    extractRawLink (fun _ => str "https://weidian.com/item.html?itemID=9")
      ⟨str "https:", str "www.pandabuy.com", str "/product",
        [(str "url", str "PJfYGc3vTkLbc")], []⟩ =
      parseUrl (str "https://weidian.com/item.html?itemID=9") ∧
    extractRawLink (fun _ => str "https://weidian.com/item.html?itemID=9")
      ⟨str "https:", str "www.pandabuy.com", str "/product",
        [(str "url", str "https://item.taobao.com/item.htm?id=5")], []⟩ =
      match parseUrl (str "https://item.taobao.com/item.htm?id=5") with
      | .ok u => .ok u
      | .error _ => parseUrl (percentDecode (str "https://item.taobao.com/item.htm?id=5")) :=
  ⟨(c7_pandabuy_cipher_routing (fun _ => str "https://weidian.com/item.html?itemID=9")
      ⟨str "https:", str "www.pandabuy.com", str "/product",
        [(str "url", str "PJfYGc3vTkLbc")], []⟩
      (str "PJfYGc3vTkLbc") (by decide) rfl).1 (by decide),
   (c7_pandabuy_cipher_routing (fun _ => str "https://weidian.com/item.html?itemID=9")
      ⟨str "https:", str "www.pandabuy.com", str "/product",
        [(str "url", str "https://item.taobao.com/item.htm?id=5")], []⟩
      (str "https://item.taobao.com/item.htm?id=5") (by decide) rfl).2 (by decide)⟩

/-- C6: when the bespoke attempt fails, the generic `url`-parameter fallback is
tried: a present (possibly once-more percent-encoded) embedded URL decodes
successfully; an exhausted fallback surfaces an error carrying both the
original error message and the offending URL. -/
theorem c6_fallback_ordering :
    (∀ (decrypt : Str → Str) (link : Url) (e v : Str) (w : Url),
      attemptDecode link = .error e →
      extractInnerParam link = some v →
      (decide (detectAgent link = some .pandabuy) && strStarts (str "PJ") v) = false →
      (parseUrl v = .ok w ∨
        ((parseUrl v).toOption = none ∧ parseUrl (percentDecode v) = .ok w)) →
      extractRawLink decrypt link = .ok w) ∧
    (∀ (decrypt : Str → Str) (link : Url) (e : Str),
      attemptDecode link = .error e →
      extractInnerParam link = none →
      extractRawLink decrypt link = .error (fallbackFailMsg e link)) ∧
    (∀ (e : Str) (link : Url),
      strContains e (fallbackFailMsg e link) = true ∧
      strContains link.href (fallbackFailMsg e link) = true) := by
  refine ⟨?_, ?_, ?_⟩
  · intro decrypt link e v w h1 h2 h3 h4
    rcases h4 with h4 | ⟨h4a, h4b⟩
    · simp [extractRawLink, h1, h2, h3, h4]
    · cases hpv : parseUrl v with
      | ok u => rw [hpv] at h4a; cases h4a
      | error msg => simp [extractRawLink, h1, h2, h3, hpv, h4b]
  · intro decrypt link e h1 h2
    simp [extractRawLink, h1, h2]
  · intro e link
    unfold fallbackFailMsg
    constructor
    · have := strContains_mid
        (str "Error extracting inner link. Fallback unsuccessful. Error: (")
        (str ") - " ++ link.href) e
      simpa [List.append_assoc] using this
    · exact strContains_append_left _ (strContains_self _)

/-- C6 witness: an undetected-agent link with an embedded `url` parameter
decodes via the fallback, and one without it fails with the wrapped message. -/
theorem c6_fallback_ordering_witness :
    extractRawLink (fun s => s)
      ⟨str "https:", str "www.example.com", str "/",
        [(str "url", str "https://item.taobao.com/item.htm?id=1")], []⟩ =
      .ok (generateRawLink .taobao (str "1")) ∧
    extractRawLink (fun s => s)
      ⟨str "https:", str "www.example.com", str "/", [], []⟩ =
      .error (fallbackFailMsg (str "Agent not detected.")
        ⟨str "https:", str "www.example.com", str "/", [], []⟩) :=
  ⟨c6_fallback_ordering.1 (fun s => s) _ (str "Agent not detected.") _ _ rfl rfl
      (by decide) (Or.inl rfl),
   c6_fallback_ordering.2.1 (fun s => s) _ (str "Agent not detected.") rfl rfl⟩

/-- C5 counterexample: a kameymall purchase-history link (numeric second path
segment) does NOT always fail — the catch block applies the generic `url`
fallback to the purchase-history error like any other, so this link decodes
successfully, contradicting "never attempts extraction by any other
strategy". -/
theorem c5_counterexample_fallback_is_tried :
    splitAllChar '/' kameymallHistLinkWithUrl.pathname =
      [[], str "purchases", str "12345", str "item"] ∧
    digitsOnly (str "12345") = true ∧
    detectAgent kameymallHistLinkWithUrl = some .kameymall ∧
    extractRawLink (fun s => s) kameymallHistLinkWithUrl =
      .ok (generateRawLink .taobao (str "1")) :=
  ⟨by decide, by decide, by decide, rfl⟩

/-- C5 (amended): a kameymall purchase-history link fails with the
purchase-history error only when the generic `url` fallback is also exhausted;
the surfaced failure then wraps the purchase-history message and the URL. -/
theorem c5_undecodable_wrapped (decrypt : Str → Str) (link : Url) (x0 x1 s2 : Str)
    (t : List Str) (h1 : detectAgent link = some .kameymall)
    (h2 : splitAllChar '/' link.pathname = x0 :: x1 :: s2 :: t)
    (h3 : s2 ≠ []) (h4 : digitsOnly s2 = true)
    (h5 : extractInnerParam link = none) :
    extractRawLink decrypt link = .error (fallbackFailMsg
      (str "Kameymall link is a purchase history link. This type of link cannot be decoded.")
      link) := by
  have hatt : attemptDecode link = .error
      (str "Kameymall link is a purchase history link. This type of link cannot be decoded.") := by
    unfold attemptDecode
    rw [h1]
    show decodeKameymall link = _
    unfold decodeKameymall
    rw [h2]
    simp [h3, h4]
  simp [extractRawLink, hatt, h5]

/-- C5 witness: the concrete purchase-history link of the in-src test surfaces
the wrapped purchase-history error. -/
theorem c5_undecodable_wrapped_witness :
    extractRawLink (fun s => s)
      ⟨str "https:", str "www.kameymall.com",
        str "/purchases/1730295605736697858/xyz", [], []⟩ =
      .error (fallbackFailMsg
        (str "Kameymall link is a purchase history link. This type of link cannot be decoded.")
        ⟨str "https:", str "www.kameymall.com",
          str "/purchases/1730295605736697858/xyz", [], []⟩) :=
  c5_undecodable_wrapped (fun s => s) _ [] (str "purchases")
    (str "1730295605736697858") [str "xyz"] (by decide) (by decide) (by decide)
    (by decide) rfl

theorem parseParams_render_head (k v : Str) (rest : List (Str × Str)) (hk : k ≠ [])
    (hka : asciiStr k = true) (hva : asciiStr v = true) :
    ∃ tail, parseParams (renderParams ((k, v) :: rest)) = (k, v) :: tail := by
  have hseg : formEncodeStr k ++ '=' :: formEncodeStr v ≠ [] := by
    intro he
    exact formEncodeStr_ne_nil hk (List.append_eq_nil.mp he).1
  cases rest with
  | nil =>
    refine ⟨[], ?_⟩
    show parseParams (formEncodeStr k ++ '=' :: formEncodeStr v) = [(k, v)]
    unfold parseParams
    rw [splitAllChar_not_mem (amp_not_mem_pair k v)]
    simp [hseg, parsePair_render hka hva]
  | cons kv2 rest2 =>
    refine ⟨parseParams (renderParams (kv2 :: rest2)), ?_⟩
    show parseParams (formEncodeStr k ++ '=' :: formEncodeStr v ++
      '&' :: renderParams (kv2 :: rest2)) = (k, v) :: parseParams (renderParams (kv2 :: rest2))
    unfold parseParams
    have hsplit : splitAllChar '&' (formEncodeStr k ++ '=' :: formEncodeStr v ++
        '&' :: renderParams (kv2 :: rest2)) =
        (formEncodeStr k ++ '=' :: formEncodeStr v) ::
          splitAllChar '&' (renderParams (kv2 :: rest2)) := by
      have := @splitAllChar_append '&' (formEncodeStr k ++ '=' :: formEncodeStr v)
        (renderParams (kv2 :: rest2)) (amp_not_mem_pair k v)
      rw [← this]
    rw [hsplit]
    simp only [List.filterMap_cons, if_neg hseg, parsePair_render hka hva]

theorem queryOf_hash {proto host path : Str} {params : List (Str × Str)} {lit : Str}
    (hq : '?' ∉ lit) (ps : List (Str × Str)) :
    queryOf ⟨proto, host, path, params, (lit ++ ['?']) ++ renderParams ps⟩ =
      parseParams (renderParams ps) := by
  unfold queryOf
  rw [List.append_assoc]
  simp only [List.singleton_append]
  rw [splitFirstChar_append hq]

/-- C8: the sugargoo encoder attaches the raw link with an explicit extra
percent-encoding to `productLink` — so the final URL carries it doubly
encoded once the builder encodes the query — while every other URL-embedding
agent attaches the raw link itself, percent-encoded exactly once by the
builder. -/
theorem c8_sugargoo_double_encoding :
    (∀ (m : Marketplace) (id : Str) (ref ra : Option Str) (u : Url),
      generateAgentLink .sugargoo m id ref ra = .ok u →
      getParam (queryOf u) (str "productLink") =
        some (encodeURIComponentStr (generateRawLink m id).href)) ∧
    (∀ (a : AgentWithRaw) (k : Str) (m : Marketplace) (id : Str) (ref ra : Option Str)
      (u : Url), urlEmbedKey a = some k →
      generateAgentLink a m id ref ra = .ok u →
      getParam u.params k = some ((generateRawLink m id).href)) := by
  constructor
  · intro m id ref ra u henc
    cases henc
    rw [show (str "/home/productDetail?" : Str) =
      str "/home/productDetail" ++ ['?'] from by decide]
    rw [queryOf_hash (by decide)]
    simp only [List.singleton_append]
    obtain ⟨tail, hp⟩ := parseParams_render_head (str "productLink")
      (encodeURIComponentStr (generateRawLink m id).href)
      (refParam (str "memberId") ref) (by decide) (by decide)
      (ascii_encStr _)
    rw [hp]
    simp [getParam]
  · intro a k m id ref ra u hk henc
    cases a <;> try exact Option.noConfusion hk
    all_goals cases hk
    all_goals cases henc
    all_goals rfl

/-- C8 witness: concrete sugargoo and wegobuy encodings carry the doubly- and
singly-encoded raw link respectively. -/
theorem c8_sugargoo_double_encoding_witness :
    getParam (queryOf ⟨str "https:", str "www.sugargoo.com", str "/", [],
        str "/home/productDetail?" ++ renderParams [(str "productLink",
          encodeURIComponentStr (generateRawLink .weidian (str "123")).href)]⟩)
      (str "productLink") =
      some (encodeURIComponentStr (generateRawLink .weidian (str "123")).href) ∧
    getParam [(str "from", str "search-input"),
        (str "url", (generateRawLink .taobao (str "5")).href)] (str "url") =
      some ((generateRawLink .taobao (str "5")).href) :=
  ⟨c8_sugargoo_double_encoding.1 .weidian (str "123") none none _ rfl,
   c8_sugargoo_double_encoding.2 .wegobuy (str "url") .taobao (str "5") none none _
     rfl rfl⟩

theorem getParam_not_mem {l : List (Str × Str)} {key : Str}
    (h : ∀ kv ∈ l, kv.1 ≠ key) : getParam l key = none := by
  induction l with
  | nil => rfl
  | cons kv rest ih =>
    obtain ⟨k, v⟩ := kv
    have hk : ¬(k = key) := h (k, v) (List.mem_cons_self _ _)
    simp only [getParam, if_neg hk]
    exact ih fun x hx => h x (List.mem_cons_of_mem _ hx)

theorem queryOf_no_hash (proto host path : Str) (params : List (Str × Str)) :
    queryOf ⟨proto, host, path, params, []⟩ = params := rfl

/-- Reading the referral key from a parameter list that ends with the
`refParam` block yields exactly the supplied non-empty referral and nothing
when it was omitted or empty. -/
theorem getParam_refParam (pre : List (Str × Str)) (key : Str) (refOpt : Option Str)
    (h : ∀ kv ∈ pre, kv.1 ≠ key) :
    getParam (pre ++ refParam key refOpt) key = truthyRef refOpt := by
  induction pre with
  | nil =>
    simp only [List.nil_append]
    cases refOpt with
    | none => rfl
    | some r =>
      by_cases hr : r = []
      · simp [refParam, hr, getParam, truthyRef]
      · simp [refParam, hr, getParam, truthyRef]
  | cons kv rest ih =>
    obtain ⟨k, v⟩ := kv
    have hk : ¬(k = key) := h (k, v) (List.mem_cons_self _ _)
    simp only [List.cons_append, getParam, if_neg hk]
    exact ih fun x hx => h x (List.mem_cons_of_mem _ hx)

/-- As `getParam_refParam`, for agents that put the referral block first. -/
theorem getParam_refParam_front (l2 : List (Str × Str)) (key : Str) (refOpt : Option Str)
    (h : ∀ kv ∈ l2, kv.1 ≠ key) :
    getParam (refParam key refOpt ++ l2) key = truthyRef refOpt := by
  cases refOpt with
  | none => simpa [refParam, truthyRef] using getParam_not_mem h
  | some r =>
    by_cases hr : r = []
    · simp only [refParam, if_pos hr, List.nil_append, truthyRef, hr]
      exact getParam_not_mem h
    · simp [refParam, hr, getParam, truthyRef]

theorem parseParams_render_refParam (pre : List (Str × Str)) (key : Str)
    (refOpt : Option Str) (hk : ∀ kv ∈ pre, kv.1 ≠ [])
    (ha : ∀ kv ∈ pre, asciiStr kv.1 = true ∧ asciiStr kv.2 = true)
    (hkey : key ≠ []) (hkeya : asciiStr key = true)
    (hra : ∀ r, refOpt = some r → asciiStr r = true) :
    parseParams (renderParams (pre ++ refParam key refOpt)) = pre ++ refParam key refOpt := by
  apply parseParams_render
  · intro kv hkv
    rcases List.mem_append.mp hkv with h1 | h1
    · exact hk kv h1
    · cases refOpt with
      | none => cases h1
      | some r =>
        by_cases hr : r = []
        · rw [refParam, if_pos hr] at h1
          cases h1
        · rw [refParam, if_neg hr] at h1
          rcases List.mem_singleton.mp h1 with rfl
          exact hkey
  · intro kv hkv
    rcases List.mem_append.mp hkv with h1 | h1
    · exact ha kv h1
    · cases refOpt with
      | none => cases h1
      | some r =>
        by_cases hr : r = []
        · rw [refParam, if_pos hr] at h1
          cases h1
        · rw [refParam, if_neg hr] at h1
          rcases List.mem_singleton.mp h1 with rfl
          exact ⟨hkeya, hra r rfl⟩

/-- C3: for every agent that defines a referral parameter, a non-empty
referral appears in the generated URL's query under that agent's parameter
name with exactly the supplied value; an omitted or empty referral yields no
such parameter at all. -/
theorem c3_referral_pass_through (a : AgentWithRaw) (p : Str) (m : Marketplace)
    (id : Str) (refOpt ra : Option Str) (u : Url)
    (h : referralParamName a = some p) (hid : asciiStr id = true)
    (hra : ∀ r, refOpt = some r → asciiStr r = true)
    (henc : generateAgentLink a m id refOpt ra = .ok u) :
    getParam (queryOf u) p = truthyRef refOpt := by
  cases a
  case ezbuycn => exact Option.noConfusion h
  case basetao => exact Option.noConfusion h
  case raw => exact Option.noConfusion h
  case pandabuy =>
    cases h
    cases henc
    rw [queryOf_no_hash]
    apply getParam_refParam
    intro kv hkv
    simp only [List.mem_cons, List.not_mem_nil, or_false] at hkv
    rcases hkv with rfl | rfl <;> simp +decide
  case wegobuy =>
    cases h
    cases henc
    rw [queryOf_no_hash]
    apply getParam_refParam
    intro kv hkv
    simp only [List.mem_cons, List.not_mem_nil, or_false] at hkv
    rcases hkv with rfl | rfl <;> simp +decide
  case superbuy =>
    cases h
    cases henc
    rw [queryOf_no_hash]
    apply getParam_refParam
    intro kv hkv
    simp only [List.mem_cons, List.not_mem_nil, or_false] at hkv
    rcases hkv with rfl | rfl <;> simp +decide
  case allchinabuy =>
    cases h
    cases henc
    rw [queryOf_no_hash]
    apply getParam_refParam
    intro kv hkv
    simp only [List.mem_cons, List.not_mem_nil, or_false] at hkv
    rcases hkv with rfl | rfl <;> simp +decide
  case eastmallbuy =>
    cases h
    cases henc
    rw [queryOf_no_hash]
    apply getParam_refParam
    intro kv hkv
    simp only [List.mem_cons, List.not_mem_nil, or_false] at hkv
    rcases hkv with rfl | rfl <;> simp +decide
  case hubbuycn =>
    cases h
    cases henc
    rw [queryOf_no_hash]
    apply getParam_refParam
    intro kv hkv
    simp only [List.mem_cons, List.not_mem_nil, or_false] at hkv
    rcases hkv with rfl | rfl <;> simp +decide
  case hagobuy =>
    cases h
    cases henc
    rw [queryOf_no_hash]
    apply getParam_refParam
    intro kv hkv
    simp only [List.mem_cons, List.not_mem_nil, or_false] at hkv
    rcases hkv with rfl <;> simp +decide
  case hegobuy =>
    cases h
    cases henc
    rw [queryOf_no_hash]
    apply getParam_refParam
    intro kv hkv
    simp only [List.mem_cons, List.not_mem_nil, or_false] at hkv
    rcases hkv with rfl <;> simp +decide
  case kameymall =>
    cases h
    cases henc
    rw [queryOf_no_hash]
    apply getParam_refParam
    intro kv hkv
    simp only [List.mem_cons, List.not_mem_nil, or_false] at hkv
    rcases hkv with rfl <;> simp +decide
  case loongbuy =>
    cases h
    cases henc
    rw [queryOf_no_hash]
    apply getParam_refParam
    intro kv hkv
    simp only [List.mem_cons, List.not_mem_nil, or_false] at hkv
    rcases hkv with rfl <;> simp +decide
  case cnfans =>
    cases h
    cases henc
    rw [queryOf_no_hash]
    apply getParam_refParam
    intro kv hkv
    simp only [List.mem_cons, List.not_mem_nil, or_false] at hkv
    rcases hkv with rfl | rfl <;> simp +decide
  case mulebuy =>
    cases h
    cases henc
    rw [queryOf_no_hash]
    apply getParam_refParam
    intro kv hkv
    simp only [List.mem_cons, List.not_mem_nil, or_false] at hkv
    rcases hkv with rfl | rfl <;> simp +decide
  case joyabuy =>
    cases h
    cases henc
    rw [queryOf_no_hash]
    apply getParam_refParam
    intro kv hkv
    simp only [List.mem_cons, List.not_mem_nil, or_false] at hkv
    rcases hkv with rfl | rfl <;> simp +decide
  case orientdig =>
    cases h
    cases henc
    rw [queryOf_no_hash]
    apply getParam_refParam
    intro kv hkv
    simp only [List.mem_cons, List.not_mem_nil, or_false] at hkv
    rcases hkv with rfl | rfl <;> simp +decide
  case lovegobuy =>
    cases h
    cases henc
    rw [queryOf_no_hash]
    apply getParam_refParam
    intro kv hkv
    simp only [List.mem_cons, List.not_mem_nil, or_false] at hkv
    rcases hkv with rfl | rfl <;> simp +decide
  case blikbuy =>
    cases h
    cases henc
    rw [queryOf_no_hash]
    apply getParam_refParam
    intro kv hkv
    simp only [List.mem_cons, List.not_mem_nil, or_false] at hkv
    rcases hkv with rfl | rfl <;> simp +decide
  case ponybuy =>
    cases h
    cases henc
    rw [queryOf_no_hash]
    apply getParam_refParam_front
    intro kv hkv
    simp only [List.mem_cons, List.not_mem_nil, or_false] at hkv
    rcases hkv with rfl | rfl <;> simp +decide
  case cssbuy =>
    cases h
    cases m <;> cases henc <;>
      (rw [queryOf_no_hash]
       exact getParam_refParam [] _ refOpt fun kv hkv => absurd hkv (List.not_mem_nil kv))
  case hoobuy =>
    cases h
    cases m <;> cases henc <;>
      (rw [queryOf_no_hash]
       exact getParam_refParam [] _ refOpt fun kv hkv => absurd hkv (List.not_mem_nil kv))
  case oopbuy =>
    cases h
    cases m <;> cases henc <;>
      (rw [queryOf_no_hash]
       exact getParam_refParam [] _ refOpt fun kv hkv => absurd hkv (List.not_mem_nil kv))
  case sifubuy =>
    cases h
    cases m
    case tmall => cases henc
    all_goals
      cases henc
      rw [queryOf_no_hash]
      apply getParam_refParam_front
      intro kv hkv
      simp only [List.mem_cons, List.not_mem_nil, or_false] at hkv
      rcases hkv with rfl | rfl <;> simp +decide
  case sugargoo =>
    cases h
    cases henc
    rw [show (str "/home/productDetail?" : Str) =
      str "/home/productDetail" ++ ['?'] from by decide]
    rw [queryOf_hash (by decide)]
    have hparse := parseParams_render_refParam
      [(str "productLink", encodeURIComponentStr (generateRawLink m id).href)]
      (str "memberId") refOpt
      (by
        intro kv hkv
        simp only [List.mem_cons, List.not_mem_nil, or_false] at hkv
        rcases hkv with rfl <;> simp +decide)
      (by
        intro kv hkv
        simp only [List.mem_cons, List.not_mem_nil, or_false] at hkv
        rcases hkv with rfl
        exact ⟨by simp +decide, by simpa using ascii_encStr _⟩)
      (by decide) (by decide) hra
    rw [hparse]
    apply getParam_refParam
    intro kv hkv
    simp only [List.mem_cons, List.not_mem_nil, or_false] at hkv
    rcases hkv with rfl <;> simp +decide
  case panglobalbuy =>
    cases h
    cases m
    case tmall => cases henc
    case taobao =>
      cases henc
      rw [show (str "/details?" : Str) = str "/details" ++ ['?'] from by decide]
      rw [queryOf_hash (by decide)]
      have hparse := parseParams_render_refParam
        [(str "type", str "1"), (str "offerId", id)] (str "share_id") refOpt
        (by
          intro kv hkv
          simp only [List.mem_cons, List.not_mem_nil, or_false] at hkv
          rcases hkv with rfl | rfl <;> simp +decide)
        (by
          intro kv hkv
          simp only [List.mem_cons, List.not_mem_nil, or_false] at hkv
          rcases hkv with rfl | rfl
          · exact ⟨by simp +decide, by simp +decide⟩
          · exact ⟨by simp +decide, by simpa using hid⟩)
        (by decide) (by decide) hra
      rw [hparse]
      apply getParam_refParam
      intro kv hkv
      simp only [List.mem_cons, List.not_mem_nil, or_false] at hkv
      rcases hkv with rfl | rfl <;> simp +decide
    case weidian =>
      cases henc
      rw [show (str "/details?" : Str) = str "/details" ++ ['?'] from by decide]
      rw [queryOf_hash (by decide)]
      have hparse := parseParams_render_refParam
        [(str "type", str "2"), (str "offerId", id)] (str "share_id") refOpt
        (by
          intro kv hkv
          simp only [List.mem_cons, List.not_mem_nil, or_false] at hkv
          rcases hkv with rfl | rfl <;> simp +decide)
        (by
          intro kv hkv
          simp only [List.mem_cons, List.not_mem_nil, or_false] at hkv
          rcases hkv with rfl | rfl
          · exact ⟨by simp +decide, by simp +decide⟩
          · exact ⟨by simp +decide, by simpa using hid⟩)
        (by decide) (by decide) hra
      rw [hparse]
      apply getParam_refParam
      intro kv hkv
      simp only [List.mem_cons, List.not_mem_nil, or_false] at hkv
      rcases hkv with rfl | rfl <;> simp +decide
    case m1688 =>
      cases henc
      rw [show (str "/details?" : Str) = str "/details" ++ ['?'] from by decide]
      rw [queryOf_hash (by decide)]
      have hparse := parseParams_render_refParam
        [(str "type", str "0"), (str "offerId", id)] (str "share_id") refOpt
        (by
          intro kv hkv
          simp only [List.mem_cons, List.not_mem_nil, or_false] at hkv
          rcases hkv with rfl | rfl <;> simp +decide)
        (by
          intro kv hkv
          simp only [List.mem_cons, List.not_mem_nil, or_false] at hkv
          rcases hkv with rfl | rfl
          · exact ⟨by simp +decide, by simp +decide⟩
          · exact ⟨by simp +decide, by simpa using hid⟩)
        (by decide) (by decide) hra
      rw [hparse]
      apply getParam_refParam
      intro kv hkv
      simp only [List.mem_cons, List.not_mem_nil, or_false] at hkv
      rcases hkv with rfl | rfl <;> simp +decide

/-- C3 witness: cnfans with a non-empty referral carries `ref=myC0d3`; with the
referral omitted the parameter is absent. -/
theorem c3_referral_pass_through_witness :
    getParam (queryOf ⟨str "https:", str "cnfans.com", str "/product/",
        [(str "shop_type", str "weidian"), (str "id", str "55")] ++
          refParam (str "ref") (some (str "myC0d3")), []⟩) (str "ref") =
      truthyRef (some (str "myC0d3")) ∧
    getParam (queryOf ⟨str "https:", str "cnfans.com", str "/product/",
        [(str "shop_type", str "weidian"), (str "id", str "55")] ++
          refParam (str "ref") none, []⟩) (str "ref") = truthyRef none :=
  ⟨c3_referral_pass_through .cnfans (str "ref") .weidian (str "55")
      (some (str "myC0d3")) none _ rfl (by decide)
      (fun r hr => by cases hr; decide) rfl,
   c3_referral_pass_through .cnfans (str "ref") .weidian (str "55") none none _
      rfl (by decide) (fun r hr => Option.noConfusion hr) rfl⟩

theorem mem_renderParams {c : Char} {ps : List (Str × Str)} (hc : c ∈ renderParams ps) :
    c = '=' ∨ c = '&' ∨
      ∃ kv ∈ ps, c ∈ formEncodeStr kv.1 ∨ c ∈ formEncodeStr kv.2 := by
  induction ps with
  | nil => cases hc
  | cons kv rest ih =>
    obtain ⟨k, v⟩ := kv
    cases rest with
    | nil =>
      simp only [renderParams, List.mem_append, List.mem_cons] at hc
      rcases hc with h1 | h1 | h1
      · exact Or.inr (Or.inr ⟨(k, v), List.mem_cons_self _ _, Or.inl h1⟩)
      · exact Or.inl h1
      · exact Or.inr (Or.inr ⟨(k, v), List.mem_cons_self _ _, Or.inr h1⟩)
    | cons kv2 rest2 =>
      simp only [renderParams, List.mem_append, List.mem_cons] at hc
      rcases hc with (h1 | h1 | h1) | (h1 | h1)
      · exact Or.inr (Or.inr ⟨(k, v), List.mem_cons_self _ _, Or.inl h1⟩)
      · exact Or.inl h1
      · exact Or.inr (Or.inr ⟨(k, v), List.mem_cons_self _ _, Or.inr h1⟩)
      · exact Or.inr (Or.inl h1)
      · rcases ih h1 with h5 | h5 | ⟨kv3, hkv3, h5⟩
        · exact Or.inl h5
        · exact Or.inr (Or.inl h5)
        · exact Or.inr (Or.inr ⟨kv3, List.mem_cons_of_mem _ hkv3, h5⟩)

/-- A structural delimiter (`#`, `?`, `/`) never occurs in a rendered query
string. -/
theorem delim_not_mem_renderParams {c : Char} (h1 : isFormSafe c = false)
    (h2 : ¬c = '+') (h3 : ¬c = '%') (h4 : plainHexChar c = false)
    (h5 : ¬c = '=') (h6 : ¬c = '&') (ps : List (Str × Str)) :
    c ∉ renderParams ps := by
  intro hc
  rcases mem_renderParams hc with h | h | ⟨kv, _, h | h⟩
  · exact h5 h
  · exact h6 h
  · exact delim_not_mem_formEncodeStr h1 h2 h3 h4 _ h
  · exact delim_not_mem_formEncodeStr h1 h2 h3 h4 _ h

/-- Parsing the serialization of a fragment-free https URL recovers it. -/
theorem parseUrl_href_noHash (u : Url) (hproto : u.protocol = str "https:")
    (hhash : u.hash = []) (hhost_ne : u.host ≠ [])
    (hhost : ∀ c ∈ u.host, ¬c = '/' ∧ ¬c = '?' ∧ ¬c = '#')
    (hpath : ∃ t, u.pathname = '/' :: t)
    (hpathc : ∀ c ∈ u.pathname, ¬c = '?' ∧ ¬c = '#')
    (hparams : parseParams (renderParams u.params) = u.params) :
    parseUrl u.href = .ok u := by
  obtain ⟨proto, host, path, params, hash⟩ := u
  dsimp only at hproto hhash hhost hhost_ne hpath hpathc hparams ⊢
  subst hproto
  subst hhash
  obtain ⟨pt, rfl⟩ := hpath
  have hspan : spanStr (fun c => !(c == '/')) (host ++ '/' :: pt) = (host, '/' :: pt) := by
    apply spanStr_append
    · intro a ha
      simp [(hhost a ha).1]
    · simp
  have hhref : Url.href ⟨str "https:", host, '/' :: pt, params, []⟩ =
      str "https://" ++ (host ++ (('/' :: pt) ++
        (if params.isEmpty then [] else '?' :: renderParams params))) := by
    show (((((str "https:" ++ str "//") ++ host) ++ ('/' :: pt)) ++
        (if params.isEmpty then [] else '?' :: renderParams params)) ++
        (if ([] : Str).isEmpty then [] else '#' :: ([] : Str))) = _
    rw [show ((str "https:" ++ str "//") : Str) = str "https://" from by decide]
    simp [List.append_assoc]
  rw [hhref]
  have hstarts : strStarts (str "https://") (str "https://" ++ (host ++ (('/' :: pt) ++
      (if params.isEmpty then [] else '?' :: renderParams params)))) = true :=
    strStarts_self_append _ _
  have hdrop : List.drop 8 (str "https://" ++ (host ++ (('/' :: pt) ++
      (if params.isEmpty then [] else '?' :: renderParams params)))) =
      host ++ (('/' :: pt) ++
        (if params.isEmpty then [] else '?' :: renderParams params)) := by
    rw [show (8 : Nat) = (str "https://").length from by decide, List.drop_left]
  simp only [parseUrl, hstarts, if_true, hdrop]
  by_cases hpe : params = []
  · subst hpe
    simp only [List.isEmpty_nil, if_true, List.append_nil]
    have hnohash : '#' ∉ host ++ '/' :: pt := by
      intro hm
      rcases List.mem_append.mp hm with h | h
      · exact (hhost _ h).2.2 rfl
      · exact (hpathc _ h).2 rfl
    have hnoq : '?' ∉ host ++ '/' :: pt := by
      intro hm
      rcases List.mem_append.mp hm with h | h
      · exact (hhost _ h).2.1 rfl
      · exact (hpathc _ h).1 rfl
    simp only [parseUrl.parseUrlAfter, splitFirstChar_not_mem hnohash,
      splitFirstChar_not_mem hnoq, hspan]
    rw [if_neg hhost_ne]
    rfl
  · have hq : (params.isEmpty : Bool) = false := by
      simpa using hpe
    simp only [hq, Bool.false_eq_true, if_false]
    have hnohash : '#' ∉ host ++ ('/' :: pt ++ '?' :: renderParams params) := by
      intro hm
      rcases List.mem_append.mp hm with h | h
      · exact (hhost _ h).2.2 rfl
      · rcases List.mem_append.mp h with h | h
        · exact (hpathc _ h).2 rfl
        · rcases List.mem_cons.mp h with h | h
          · cases h
          · exact delim_not_mem_renderParams (by decide) (by decide) (by decide)
              (by decide) (by decide) (by decide) params h
    have hnoq : '?' ∉ host ++ '/' :: pt := by
      intro hm
      rcases List.mem_append.mp hm with h | h
      · exact (hhost _ h).2.1 rfl
      · exact (hpathc _ h).1 rfl
    have hR : host ++ ('/' :: pt ++ '?' :: renderParams params) =
        (host ++ '/' :: pt) ++ '?' :: renderParams params := by
      simp [List.append_assoc]
    simp only [parseUrl.parseUrlAfter, splitFirstChar_not_mem hnohash]
    rw [hR, splitFirstChar_append hnoq]
    simp only [hspan]
    rw [if_neg hhost_ne]
    simp only [hparams]
    simp

theorem parseParams_render_id (key : Str) (id : Str) (hkey : key ≠ [])
    (hkeya : asciiStr key = true) (h : digitsOnly id = true) :
    parseParams (renderParams [(key, id)]) = [(key, id)] := by
  apply parseParams_render
  · intro kv hkv
    simp only [List.mem_singleton] at hkv
    subst hkv
    exact hkey
  · intro kv hkv
    simp only [List.mem_singleton] at hkv
    subst hkv
    exact ⟨hkeya, digit_ascii h⟩

/-- Parsing the serialized raw link of any marketplace and digit-string id
recovers it exactly. -/
theorem parseUrl_raw (m : Marketplace) (id : Str) (h : digitsOnly id = true) :
    parseUrl ((generateRawLink m id).href) = .ok (generateRawLink m id) := by
  cases m
  case taobao =>
    apply parseUrl_href_noHash
    · rfl
    · rfl
    · simp +decide [generateRawLink]
    · simp +decide [generateRawLink]
    · exact ⟨str "item.htm", rfl⟩
    · simp +decide [generateRawLink]
    · exact parseParams_render_id _ _ (by decide) (by decide) h
  case tmall =>
    apply parseUrl_href_noHash
    · rfl
    · rfl
    · simp +decide [generateRawLink]
    · simp +decide [generateRawLink]
    · exact ⟨str "item.htm", rfl⟩
    · simp +decide [generateRawLink]
    · exact parseParams_render_id _ _ (by decide) (by decide) h
  case weidian =>
    apply parseUrl_href_noHash
    · rfl
    · rfl
    · simp +decide [generateRawLink]
    · simp +decide [generateRawLink]
    · exact ⟨str "item.html", rfl⟩
    · simp +decide [generateRawLink]
    · exact parseParams_render_id _ _ (by decide) (by decide) h
  case m1688 =>
    apply parseUrl_href_noHash
    · rfl
    · rfl
    · simp +decide [generateRawLink]
    · simp +decide [generateRawLink]
    · exact ⟨(str "offer/" ++ id) ++ str ".html", rfl⟩
    · dsimp only [generateRawLink]
      intro c hc
      rcases List.mem_append.mp hc with hc1 | hc1
      · rcases List.mem_append.mp hc1 with hc2 | hc2
        · exact (by decide : ∀ c ∈ str "/offer/", ¬c = '?' ∧ ¬c = '#') c hc2
        · have hd : isDigitChar c = true := by
            unfold digitsOnly at h
            rw [List.all_eq_true] at h
            exact h c hc2
          exact ⟨digit_ne_of_not_digit hd (by decide),
            digit_ne_of_not_digit hd (by decide)⟩
      · exact (by decide : ∀ c ∈ str ".html", ¬c = '?' ∧ ¬c = '#') c hc1
    · rfl

theorem splitAllChar_cons_self (c : Char) (s : Str) :
    splitAllChar c (c :: s) = [] :: splitAllChar c s := by
  simp [splitAllChar]

theorem rawHref_not_PJ (m : Marketplace) (id : Str) :
    strStarts (str "PJ") ((generateRawLink m id).href) = false := by
  cases m <;> rfl

theorem asciiStr_append (a b : Str) : asciiStr (a ++ b) = (asciiStr a && asciiStr b) :=
  List.all_append

theorem ascii_rawHref (m : Marketplace) (id : Str) (hdig : digitsOnly id = true) :
    asciiStr ((generateRawLink m id).href) = true := by
  have hid := digit_ascii hdig
  have hfe := ascii_formEncodeStr id
  unfold asciiStr at hid hfe
  rw [List.all_eq_true] at hid hfe
  cases m <;>
    (simp [Url.href, generateRawLink, renderParams, asciiStr, List.all_append,
      List.all_cons] <;>
     repeat' apply And.intro) <;>
    first
    | exact hid
    | exact hfe
    | decide

theorem extractRawLink_ok_of_attempt (decrypt : Str → Str) {u w : Url}
    (h : attemptDecode u = .ok w) : extractRawLink decrypt u = .ok w := by
  simp [extractRawLink, h]

/-- Round-trip core of the fallback path: a failed bespoke attempt plus an
embedded raw-link `url` parameter decodes to that raw link. -/
theorem rt_fallback (decrypt : Str → Str) (u : Url) (m : Marketplace) (id : Str)
    {e : Str} (hdig : digitsOnly id = true) (h1 : attemptDecode u = .error e)
    (h2 : extractInnerParam u = some ((generateRawLink m id).href)) :
    extractRawLink decrypt u = .ok (generateRawLink m id) := by
  have h3 : (decide (detectAgent u = some .pandabuy) &&
      strStarts (str "PJ") ((generateRawLink m id).href)) = false := by
    rw [rawHref_not_PJ, Bool.and_false]
  simp [extractRawLink, h1, h2, h3, parseUrl_raw m id hdig]

/-- A `1688`-free digit id stays `1688`-free when `.html` is appended. -/
theorem starts1688_append (id : Str) (h : strStarts (str "1688") id = false) :
    strStarts (str "1688") (id ++ str ".html") = false := by
  rcases id with _ | ⟨a, _ | ⟨b, _ | ⟨c, _ | ⟨d, rest⟩⟩⟩⟩
  · decide
  · show (('1' == a) && false) = false
    exact Bool.and_false _
  · show (('1' == a) && (('6' == b) && false)) = false
    rw [Bool.and_false, Bool.and_false]
  · show (('1' == a) && (('6' == b) && (('8' == c) && false))) = false
    rw [Bool.and_false, Bool.and_false, Bool.and_false]
  · exact h

theorem splitDot_id (id : Str) (hdig : digitsOnly id = true) :
    splitAllChar '.' (id ++ str ".html") = [id, str "html"] := by
  rw [show (str ".html" : Str) = '.' :: str "html" from by decide]
  rw [splitAllChar_append (not_mem_of_digits (by decide) hdig)]
  rw [splitAllChar_not_mem (by decide)]

theorem dash_not_mem_idHtml (id : Str) (hdig : digitsOnly id = true) :
    '-' ∉ id ++ str ".html" := by
  intro hm
  rcases List.mem_append.mp hm with hm | hm
  · exact not_mem_of_digits (by decide) hdig hm
  · exact (by decide : ('-' : Char) ∉ str ".html") hm

theorem slash_not_mem_idHtml (id : Str) (hdig : digitsOnly id = true) :
    '/' ∉ id ++ str ".html" := by
  intro hm
  rcases List.mem_append.mp hm with hm | hm
  · exact not_mem_of_digits (by decide) hdig hm
  · exact (by decide : ('/' : Char) ∉ str ".html") hm

theorem splitDash_micro (id : Str) (hdig : digitsOnly id = true) :
    splitAllChar '-' (str "/item-micro-" ++ id ++ str ".html") =
      [str "/item", str "micro", id ++ str ".html"] := by
  rw [show (str "/item-micro-" : Str) =
    str "/item" ++ '-' :: (str "micro" ++ ['-']) from by decide]
  simp only [List.cons_append, List.append_assoc, List.singleton_append, List.nil_append]
  rw [splitAllChar_append (by decide), splitAllChar_append (by decide),
    splitAllChar_not_mem (dash_not_mem_idHtml id hdig)]

theorem splitDash_1688 (id : Str) (hdig : digitsOnly id = true) :
    splitAllChar '-' (str "/item-1688-" ++ id ++ str ".html") =
      [str "/item", str "1688", id ++ str ".html"] := by
  rw [show (str "/item-1688-" : Str) =
    str "/item" ++ '-' :: (str "1688" ++ ['-']) from by decide]
  simp only [List.cons_append, List.append_assoc, List.singleton_append, List.nil_append]
  rw [splitAllChar_append (by decide), splitAllChar_append (by decide),
    splitAllChar_not_mem (dash_not_mem_idHtml id hdig)]

theorem splitDash_plain (id : Str) (hdig : digitsOnly id = true) :
    splitAllChar '-' (str "/item-" ++ id ++ str ".html") =
      [str "/item", id ++ str ".html"] := by
  rw [show (str "/item-" : Str) = str "/item" ++ ['-'] from by decide]
  simp only [List.cons_append, List.append_assoc, List.singleton_append, List.nil_append]
  rw [splitAllChar_append (by decide),
    splitAllChar_not_mem (dash_not_mem_idHtml id hdig)]

theorem not_starts_micro (id : Str) (hdig : digitsOnly id = true) (hne : id ≠ []) :
    strStarts (str "/item-micro") (str "/item-" ++ id ++ str ".html") = false := by
  obtain ⟨c, cs, rfl⟩ := List.exists_cons_of_ne_nil hne
  have hd : isDigitChar c = true := by
    unfold digitsOnly at hdig
    rw [List.all_eq_true] at hdig
    exact hdig c (List.mem_cons_self _ _)
  have hne2 : ('m' == c) = false := by
    have hcm := digit_ne_of_not_digit hd (show isDigitChar 'm' = false from by decide)
    simp only [beq_eq_false_iff_ne]
    exact fun he => hcm he.symm
  show (('m' == c) && strStarts (str "icro") (cs ++ str ".html")) = false
  rw [hne2, Bool.false_and]

theorem not_starts_1688_path (id : Str)
    (h1688 : strStarts (str "1688") id = false) :
    strStarts (str "/item-1688") (str "/item-" ++ id ++ str ".html") = false := by
  show strStarts (str "1688") (id ++ str ".html") = false
  exact starts1688_append id h1688

/-- A cssbuy weidian link decodes back to the weidian raw link. -/
theorem decodeCssbuy_micro (id : Str) (hdig : digitsOnly id = true) (hne : id ≠ []) :
    decodeCssbuy ⟨str "https:", str "www.cssbuy.com",
      str "/item-micro-" ++ id ++ str ".html", [], []⟩ =
      .ok (generateRawLink .weidian id) := by
  unfold decodeCssbuy decryptCssbuy
  rw [if_pos (show strStarts (str "/item-micro")
    (str "/item-micro-" ++ id ++ str ".html") = true from rfl)]
  unfold cssbuyIdFrom
  dsimp only
  rw [splitDash_micro id hdig]
  simp only [List.get?]
  rw [show (splitAllChar '.' (id ++ str ".html")).headD [] = id from by
    rw [splitDot_id id hdig]; rfl]
  rw [if_neg hne]
  unfold generateProperLink
  rw [parseUrl_raw .weidian id hdig]
  rfl

/-- A cssbuy 1688 link decodes back to the 1688 raw link. -/
theorem decodeCssbuy_1688 (id : Str) (hdig : digitsOnly id = true) (hne : id ≠ []) :
    decodeCssbuy ⟨str "https:", str "www.cssbuy.com",
      str "/item-1688-" ++ id ++ str ".html", [], []⟩ =
      .ok (generateRawLink .m1688 id) := by
  unfold decodeCssbuy decryptCssbuy
  rw [if_neg (show ¬strStarts (str "/item-micro")
    (str "/item-1688-" ++ id ++ str ".html") = true from by
      rw [show strStarts (str "/item-micro")
        (str "/item-1688-" ++ id ++ str ".html") = false from rfl]
      simp)]
  unfold decryptCssbuy1688
  rw [if_pos (show strStarts (str "/item-1688")
    (str "/item-1688-" ++ id ++ str ".html") = true from rfl)]
  unfold cssbuyIdFrom
  dsimp only
  rw [splitDash_1688 id hdig]
  simp only [List.get?]
  rw [show (splitAllChar '.' (id ++ str ".html")).headD [] = id from by
    rw [splitDot_id id hdig]; rfl]
  rw [if_neg hne]
  unfold generateProperLink
  rw [parseUrl_raw .m1688 id hdig]
  rfl

/-- A cssbuy taobao-shaped link whose id does not begin with `1688` decodes
back to the taobao raw link. -/
theorem decodeCssbuy_plain (id : Str) (hdig : digitsOnly id = true) (hne : id ≠ [])
    (h1688 : strStarts (str "1688") id = false) :
    decodeCssbuy ⟨str "https:", str "www.cssbuy.com",
      str "/item-" ++ id ++ str ".html", [], []⟩ =
      .ok (generateRawLink .taobao id) := by
  unfold decodeCssbuy decryptCssbuy
  rw [if_neg (show ¬strStarts (str "/item-micro")
    (str "/item-" ++ id ++ str ".html") = true from by
      rw [not_starts_micro id hdig hne]
      simp)]
  unfold decryptCssbuy1688
  rw [if_neg (show ¬strStarts (str "/item-1688")
    (str "/item-" ++ id ++ str ".html") = true from by
      rw [not_starts_1688_path id h1688]
      simp)]
  unfold decryptCssbuyTaobao
  rw [if_pos (show strStarts (str "/item")
    (str "/item-" ++ id ++ str ".html") = true from rfl)]
  unfold cssbuyIdFrom
  dsimp only
  rw [splitDash_plain id hdig]
  simp only [List.get?]
  rw [show (splitAllChar '.' (id ++ str ".html")).headD [] = id from by
    rw [splitDot_id id hdig]; rfl]
  rw [if_neg hne]
  unfold generateProperLink
  rw [parseUrl_raw .taobao id hdig]
  rfl

/-- C1 counterexample: the cssbuy agent with a taobao id that begins with the
digits `1688`.  Encoding succeeds (the taobao branch builds
`/item-16881.html`), but decoding fails: `decryptCssbuy` sees the `/item-1688`
path prefix, indexes split segment 2 which does not exist (the modelled JS
TypeError), and the fallback has no `url` parameter — so the round trip of the
claim does not hold for this supported agent/marketplace pair. -/
theorem c1_counterexample_cssbuy_1688_prefix :
    generateAgentLink .cssbuy .taobao (str "16881") none none =
      .ok ⟨str "https:", str "www.cssbuy.com", str "/item-16881.html", [], []⟩ ∧
    exceptIsOk (extractRawLink (fun s => s)
      ⟨str "https:", str "www.cssbuy.com", str "/item-16881.html", [], []⟩) = false := by
  exact ⟨rfl, rfl⟩

/-- C1 (amended): for every agent other than `raw` and every marketplace/id the
encoder accepts (nonempty digit ids; for cssbuy's taobao/tmall shape the id
must not begin with `1688`), `extractRawLink` recovers exactly the raw link of
the encoded pair — except that `tmall` may collapse to the structurally
identical `taobao` raw link for agents that cannot distinguish the two. -/
theorem c1_round_trip_amended (decrypt : Str → Str) (a : AgentWithRaw) (m : Marketplace)
    (id : Str) (hraw : a ≠ .raw) (hdig : digitsOnly id = true) (hne : id ≠ [])
    (hcss : a = .cssbuy → (m = .taobao ∨ m = .tmall) → strStarts (str "1688") id = false)
    (u : Url) (henc : generateAgentLink a m id none none = .ok u) :
    extractRawLink decrypt u = .ok (generateRawLink m id) ∨
      (m = .tmall ∧ extractRawLink decrypt u = .ok (generateRawLink .taobao id)) := by
  cases a
  case pandabuy =>
    cases henc
    exact Or.inl (rt_fallback decrypt _ m id hdig rfl rfl)
  case wegobuy =>
    cases henc
    exact Or.inl (rt_fallback decrypt _ m id hdig rfl rfl)
  case superbuy =>
    cases henc
    refine Or.inl (extractRawLink_ok_of_attempt decrypt (Eq.trans ?_ (parseUrl_raw m id hdig)))
    rfl
  case sugargoo =>
    cases henc
    refine Or.inl (extractRawLink_ok_of_attempt decrypt ?_)
    show decodeSugargoo ⟨str "https:", str "www.sugargoo.com", str "/", [],
      str "/home/productDetail?" ++ renderParams [(str "productLink",
        encodeURIComponentStr (generateRawLink m id).href)]⟩ = .ok (generateRawLink m id)
    unfold decodeSugargoo
    dsimp only
    rw [show (str "/home/productDetail?" : Str) = str "/home/productDetail" ++ ['?'] from by
      decide]
    rw [List.append_assoc]
    simp only [List.singleton_append]
    rw [splitFirstChar_append (by decide)]
    dsimp only
    have hfull : parseParams (renderParams [(str "productLink",
        encodeURIComponentStr (generateRawLink m id).href)]) =
        [(str "productLink", encodeURIComponentStr (generateRawLink m id).href)] := by
      apply parseParams_render
      · intro kv hkv
        simp only [List.mem_singleton] at hkv
        subst hkv
        exact (show (str "productLink" : Str) ≠ [] from by decide)
      · intro kv hkv
        simp only [List.mem_singleton] at hkv
        subst hkv
        exact ⟨(show asciiStr (str "productLink") = true from by decide), ascii_encStr _⟩
    rw [hfull]
    show parseUrl (percentDecode (encodeURIComponentStr (generateRawLink m id).href)) =
      .ok (generateRawLink m id)
    rw [percentDecode_encode (ascii_rawHref m id hdig)]
    exact parseUrl_raw m id hdig
  case cssbuy =>
    cases m
    case taobao =>
      cases henc
      refine Or.inl (extractRawLink_ok_of_attempt decrypt ?_)
      exact decodeCssbuy_plain id hdig hne (hcss rfl (Or.inl rfl))
    case tmall =>
      cases henc
      refine Or.inr ⟨rfl, extractRawLink_ok_of_attempt decrypt ?_⟩
      exact decodeCssbuy_plain id hdig hne (hcss rfl (Or.inr rfl))
    case weidian =>
      cases henc
      refine Or.inl (extractRawLink_ok_of_attempt decrypt ?_)
      exact decodeCssbuy_micro id hdig hne
    case m1688 =>
      cases henc
      refine Or.inl (extractRawLink_ok_of_attempt decrypt ?_)
      exact decodeCssbuy_1688 id hdig hne
  case hagobuy =>
    cases henc
    exact Or.inl (rt_fallback decrypt _ m id hdig rfl rfl)
  case hegobuy =>
    cases henc
    exact Or.inl (rt_fallback decrypt _ m id hdig rfl rfl)
  case kameymall =>
    cases henc
    refine Or.inl (extractRawLink_ok_of_attempt decrypt (Eq.trans ?_ (parseUrl_raw m id hdig)))
    rfl
  case cnfans =>
    cases m
    case taobao => cases henc; exact Or.inl (extractRawLink_ok_of_attempt decrypt rfl)
    case tmall => cases henc; exact Or.inr ⟨rfl, extractRawLink_ok_of_attempt decrypt rfl⟩
    case weidian => cases henc; exact Or.inl (extractRawLink_ok_of_attempt decrypt rfl)
    case m1688 => cases henc; exact Or.inl (extractRawLink_ok_of_attempt decrypt rfl)
  case mulebuy =>
    cases m
    case taobao => cases henc; exact Or.inl (extractRawLink_ok_of_attempt decrypt rfl)
    case tmall => cases henc; exact Or.inr ⟨rfl, extractRawLink_ok_of_attempt decrypt rfl⟩
    case weidian => cases henc; exact Or.inl (extractRawLink_ok_of_attempt decrypt rfl)
    case m1688 => cases henc; exact Or.inl (extractRawLink_ok_of_attempt decrypt rfl)
  case ezbuycn =>
    cases henc
    refine Or.inl (extractRawLink_ok_of_attempt decrypt (Eq.trans ?_ (parseUrl_raw m id hdig)))
    rfl
  case hoobuy =>
    have hsplit : ∀ pre : Str, '/' ∉ pre →
        splitAllChar '/' (('/' :: (str "product" ++ '/' :: (pre ++ ['/']))) ++ id) =
          [[], str "product", pre, id] := by
      intro pre hpre
      simp only [List.cons_append, List.append_assoc, List.singleton_append, List.nil_append]
      rw [splitAllChar_cons_self, splitAllChar_append (by decide),
        splitAllChar_append hpre,
        splitAllChar_not_mem (not_mem_of_digits (by decide) hdig)]
    cases m
    case taobao =>
      cases henc
      refine Or.inl (extractRawLink_ok_of_attempt decrypt ?_)
      show decodeHoobuy ⟨str "https:", str "www.hoobuy.com", str "/product/1/" ++ id,
        [], []⟩ = .ok (generateRawLink .taobao id)
      unfold decodeHoobuy
      dsimp only
      rw [show (str "/product/1/" : Str) =
        '/' :: (str "product" ++ '/' :: (str "1" ++ ['/'])) from by decide]
      rw [hsplit (str "1") (by decide)]
      rfl
    case tmall =>
      cases henc
      refine Or.inr ⟨rfl, extractRawLink_ok_of_attempt decrypt ?_⟩
      show decodeHoobuy ⟨str "https:", str "www.hoobuy.com", str "/product/1/" ++ id,
        [], []⟩ = .ok (generateRawLink .taobao id)
      unfold decodeHoobuy
      dsimp only
      rw [show (str "/product/1/" : Str) =
        '/' :: (str "product" ++ '/' :: (str "1" ++ ['/'])) from by decide]
      rw [hsplit (str "1") (by decide)]
      rfl
    case weidian =>
      cases henc
      refine Or.inl (extractRawLink_ok_of_attempt decrypt ?_)
      show decodeHoobuy ⟨str "https:", str "www.hoobuy.com", str "/product/2/" ++ id,
        [], []⟩ = .ok (generateRawLink .weidian id)
      unfold decodeHoobuy
      dsimp only
      rw [show (str "/product/2/" : Str) =
        '/' :: (str "product" ++ '/' :: (str "2" ++ ['/'])) from by decide]
      rw [hsplit (str "2") (by decide)]
      rfl
    case m1688 =>
      cases henc
      refine Or.inl (extractRawLink_ok_of_attempt decrypt ?_)
      show decodeHoobuy ⟨str "https:", str "www.hoobuy.com", str "/product/0/" ++ id,
        [], []⟩ = .ok (generateRawLink .m1688 id)
      unfold decodeHoobuy
      dsimp only
      rw [show (str "/product/0/" : Str) =
        '/' :: (str "product" ++ '/' :: (str "0" ++ ['/'])) from by decide]
      rw [hsplit (str "0") (by decide)]
      rfl
  case allchinabuy =>
    cases henc
    exact Or.inl (rt_fallback decrypt _ m id hdig rfl rfl)
  case basetao =>
    have hsplit : ∀ pre : Str, '/' ∉ pre →
        splitAllChar '/' (('/' :: (str "best-taobao-agent-service" ++ '/' ::
            (str "products" ++ '/' :: (str "agent" ++ '/' :: (pre ++ ['/']))))) ++
          (id ++ str ".html")) =
          [[], str "best-taobao-agent-service", str "products", str "agent", pre,
            id ++ str ".html"] := by
      intro pre hpre
      simp only [List.cons_append, List.append_assoc, List.singleton_append, List.nil_append]
      rw [splitAllChar_cons_self, splitAllChar_append (by decide),
        splitAllChar_append (by decide), splitAllChar_append (by decide),
        splitAllChar_append hpre,
        splitAllChar_not_mem (slash_not_mem_idHtml id hdig)]
    cases m
    case taobao =>
      cases henc
      refine Or.inl (extractRawLink_ok_of_attempt decrypt ?_)
      show decodeBasetao ⟨str "https:", str "www.basetao.com",
        ('/' :: (str "best-taobao-agent-service" ++ '/' :: (str "products" ++ '/' ::
          (str "agent" ++ '/' :: (str "taobao" ++ ['/']))))) ++ (id ++ str ".html"),
        [], []⟩ = .ok (generateRawLink .taobao id)
      unfold decodeBasetao
      dsimp only
      rw [hsplit (str "taobao") (by decide)]
      simp +decide [splitDot_id id hdig]
    case tmall =>
      cases henc
      refine Or.inr ⟨rfl, extractRawLink_ok_of_attempt decrypt ?_⟩
      show decodeBasetao ⟨str "https:", str "www.basetao.com",
        ('/' :: (str "best-taobao-agent-service" ++ '/' :: (str "products" ++ '/' ::
          (str "agent" ++ '/' :: (str "taobao" ++ ['/']))))) ++ (id ++ str ".html"),
        [], []⟩ = .ok (generateRawLink .taobao id)
      unfold decodeBasetao
      dsimp only
      rw [hsplit (str "taobao") (by decide)]
      simp +decide [splitDot_id id hdig]
    case weidian =>
      cases henc
      refine Or.inl (extractRawLink_ok_of_attempt decrypt ?_)
      show decodeBasetao ⟨str "https:", str "www.basetao.com",
        ('/' :: (str "best-taobao-agent-service" ++ '/' :: (str "products" ++ '/' ::
          (str "agent" ++ '/' :: (str "weidian" ++ ['/']))))) ++ (id ++ str ".html"),
        [], []⟩ = .ok (generateRawLink .weidian id)
      unfold decodeBasetao
      dsimp only
      rw [hsplit (str "weidian") (by decide)]
      simp +decide [splitDot_id id hdig]
    case m1688 =>
      cases henc
      refine Or.inl (extractRawLink_ok_of_attempt decrypt ?_)
      show decodeBasetao ⟨str "https:", str "www.basetao.com",
        ('/' :: (str "best-taobao-agent-service" ++ '/' :: (str "products" ++ '/' ::
          (str "agent" ++ '/' :: (str "1688" ++ ['/']))))) ++ (id ++ str ".html"),
        [], []⟩ = .ok (generateRawLink .m1688 id)
      unfold decodeBasetao
      dsimp only
      rw [hsplit (str "1688") (by decide)]
      simp +decide [splitDot_id id hdig]
  case eastmallbuy =>
    cases henc
    exact Or.inl (rt_fallback decrypt _ m id hdig rfl rfl)
  case hubbuycn =>
    cases henc
    refine Or.inl (extractRawLink_ok_of_attempt decrypt (Eq.trans ?_ (parseUrl_raw m id hdig)))
    rfl
  case joyabuy =>
    cases m
    case taobao => cases henc; exact Or.inl (extractRawLink_ok_of_attempt decrypt rfl)
    case tmall => cases henc; exact Or.inr ⟨rfl, extractRawLink_ok_of_attempt decrypt rfl⟩
    case weidian => cases henc; exact Or.inl (extractRawLink_ok_of_attempt decrypt rfl)
    case m1688 => cases henc; exact Or.inl (extractRawLink_ok_of_attempt decrypt rfl)
  case orientdig =>
    cases m
    case taobao => cases henc; exact Or.inl (extractRawLink_ok_of_attempt decrypt rfl)
    case tmall => cases henc; exact Or.inr ⟨rfl, extractRawLink_ok_of_attempt decrypt rfl⟩
    case weidian => cases henc; exact Or.inl (extractRawLink_ok_of_attempt decrypt rfl)
    case m1688 => cases henc; exact Or.inl (extractRawLink_ok_of_attempt decrypt rfl)
  case oopbuy =>
    have hsplit : ∀ pre : Str, '/' ∉ pre →
        splitAllChar '/' (('/' :: (str "product" ++ '/' :: (pre ++ ['/']))) ++ id) =
          [[], str "product", pre, id] := by
      intro pre hpre
      simp only [List.cons_append, List.append_assoc, List.singleton_append, List.nil_append]
      rw [splitAllChar_cons_self, splitAllChar_append (by decide),
        splitAllChar_append hpre,
        splitAllChar_not_mem (not_mem_of_digits (by decide) hdig)]
    cases m
    case taobao =>
      cases henc
      refine Or.inl (extractRawLink_ok_of_attempt decrypt ?_)
      show decodeOopbuy ⟨str "https:", str "www.oopbuy.com",
        ('/' :: (str "product" ++ '/' :: (str "taobao" ++ ['/']))) ++ id, [], []⟩ =
        .ok (generateRawLink .taobao id)
      unfold decodeOopbuy
      dsimp only
      rw [hsplit (str "taobao") (by decide)]
      rfl
    case tmall =>
      cases henc
      refine Or.inr ⟨rfl, extractRawLink_ok_of_attempt decrypt ?_⟩
      show decodeOopbuy ⟨str "https:", str "www.oopbuy.com",
        ('/' :: (str "product" ++ '/' :: (str "taobao" ++ ['/']))) ++ id, [], []⟩ =
        .ok (generateRawLink .taobao id)
      unfold decodeOopbuy
      dsimp only
      rw [hsplit (str "taobao") (by decide)]
      rfl
    case weidian =>
      cases henc
      refine Or.inl (extractRawLink_ok_of_attempt decrypt ?_)
      show decodeOopbuy ⟨str "https:", str "www.oopbuy.com",
        ('/' :: (str "product" ++ '/' :: (str "weidian" ++ ['/']))) ++ id, [], []⟩ =
        .ok (generateRawLink .weidian id)
      unfold decodeOopbuy
      dsimp only
      rw [hsplit (str "weidian") (by decide)]
      rfl
    case m1688 =>
      cases henc
      refine Or.inl (extractRawLink_ok_of_attempt decrypt ?_)
      show decodeOopbuy ⟨str "https:", str "www.oopbuy.com",
        ('/' :: (str "product" ++ '/' :: (str "1688" ++ ['/']))) ++ id, [], []⟩ =
        .ok (generateRawLink .m1688 id)
      unfold decodeOopbuy
      dsimp only
      rw [hsplit (str "1688") (by decide)]
      rfl
  case lovegobuy =>
    cases m
    case taobao => cases henc; exact Or.inl (extractRawLink_ok_of_attempt decrypt rfl)
    case tmall => cases henc; exact Or.inr ⟨rfl, extractRawLink_ok_of_attempt decrypt rfl⟩
    case weidian => cases henc; exact Or.inl (extractRawLink_ok_of_attempt decrypt rfl)
    case m1688 => cases henc; exact Or.inl (extractRawLink_ok_of_attempt decrypt rfl)
  case blikbuy =>
    cases henc
    exact Or.inl (rt_fallback decrypt _ m id hdig rfl rfl)
  case ponybuy =>
    cases m
    case taobao => cases henc; exact Or.inl (extractRawLink_ok_of_attempt decrypt rfl)
    case tmall => cases henc; exact Or.inr ⟨rfl, extractRawLink_ok_of_attempt decrypt rfl⟩
    case weidian => cases henc; exact Or.inl (extractRawLink_ok_of_attempt decrypt rfl)
    case m1688 => cases henc; exact Or.inl (extractRawLink_ok_of_attempt decrypt rfl)
  case panglobalbuy =>
    have hfullT : ∀ t : Str, t ≠ [] → asciiStr t = true →
        parseParams (renderParams [(str "type", t), (str "offerId", id)]) =
          [(str "type", t), (str "offerId", id)] := by
      intro t ht hta
      apply parseParams_render
      · intro kv hkv
        simp only [List.mem_cons, List.mem_singleton, List.not_mem_nil, or_false] at hkv
        rcases hkv with rfl | rfl
        · exact (show (str "type" : Str) ≠ [] from by decide)
        · exact (show (str "offerId" : Str) ≠ [] from by decide)
      · intro kv hkv
        simp only [List.mem_cons, List.mem_singleton, List.not_mem_nil, or_false] at hkv
        rcases hkv with rfl | rfl
        · exact ⟨(show asciiStr (str "type") = true from by decide), hta⟩
        · exact ⟨(show asciiStr (str "offerId") = true from by decide), digit_ascii hdig⟩
    cases m
    case taobao =>
      cases henc
      refine Or.inl (extractRawLink_ok_of_attempt decrypt ?_)
      show decodePanglobalbuy ⟨str "https:", str "panglobalbuy.com", str "/", [],
        str "/details?" ++ renderParams [(str "type", str "1"), (str "offerId", id)]⟩ =
        .ok (generateRawLink .taobao id)
      unfold decodePanglobalbuy
      dsimp only
      rw [show (str "/details?" : Str) = str "/details" ++ ['?'] from by decide]
      rw [List.append_assoc]
      simp only [List.singleton_append]
      rw [splitFirstChar_append (by decide)]
      dsimp only
      rw [hfullT (str "1") (by decide) (by decide)]
      rfl
    case tmall => exact absurd henc (by simp [generateAgentLink, panglobalbuyMarketplaceStrings])
    case weidian =>
      cases henc
      refine Or.inl (extractRawLink_ok_of_attempt decrypt ?_)
      show decodePanglobalbuy ⟨str "https:", str "panglobalbuy.com", str "/", [],
        str "/details?" ++ renderParams [(str "type", str "2"), (str "offerId", id)]⟩ =
        .ok (generateRawLink .weidian id)
      unfold decodePanglobalbuy
      dsimp only
      rw [show (str "/details?" : Str) = str "/details" ++ ['?'] from by decide]
      rw [List.append_assoc]
      simp only [List.singleton_append]
      rw [splitFirstChar_append (by decide)]
      dsimp only
      rw [hfullT (str "2") (by decide) (by decide)]
      rfl
    case m1688 =>
      cases henc
      refine Or.inl (extractRawLink_ok_of_attempt decrypt ?_)
      show decodePanglobalbuy ⟨str "https:", str "panglobalbuy.com", str "/", [],
        str "/details?" ++ renderParams [(str "type", str "0"), (str "offerId", id)]⟩ =
        .ok (generateRawLink .m1688 id)
      unfold decodePanglobalbuy
      dsimp only
      rw [show (str "/details?" : Str) = str "/details" ++ ['?'] from by decide]
      rw [List.append_assoc]
      simp only [List.singleton_append]
      rw [splitFirstChar_append (by decide)]
      dsimp only
      rw [hfullT (str "0") (by decide) (by decide)]
      rfl
  case sifubuy =>
    cases m
    case taobao => cases henc; exact Or.inl (extractRawLink_ok_of_attempt decrypt rfl)
    case tmall => exact absurd henc (by simp [generateAgentLink, sifubuyMarketplaceStrings])
    case weidian => cases henc; exact Or.inl (extractRawLink_ok_of_attempt decrypt rfl)
    case m1688 => cases henc; exact Or.inl (extractRawLink_ok_of_attempt decrypt rfl)
  case loongbuy =>
    cases henc
    exact Or.inl (rt_fallback decrypt _ m id hdig rfl rfl)
  case raw => exact absurd rfl hraw

theorem c1_round_trip_amended_witness :
    extractRawLink (fun s => s) ⟨str "https:", str "www.wegobuy.com", str "/en/page/buy",
        [(str "from", str "search-input"),
          (str "url", (generateRawLink .weidian (str "12")).href)], []⟩ =
      .ok (generateRawLink .weidian (str "12")) ∨
    (Marketplace.weidian = .tmall ∧
      extractRawLink (fun s => s) ⟨str "https:", str "www.wegobuy.com", str "/en/page/buy",
          [(str "from", str "search-input"),
            (str "url", (generateRawLink .weidian (str "12")).href)], []⟩ =
        .ok (generateRawLink .taobao (str "12"))) :=
  c1_round_trip_amended (fun s => s) .wegobuy .weidian (str "12") (by decide) (by decide)
    (by decide) (by decide) _ rfl
